import Mathlib

/-!
Shallow embedding of the capture-the-flag game core (simulation, codec,
synchronization) and proofs about its specification claims.

The embedding mirrors the TypeScript sources:
  * `game/constants.ts`   — numeric constants;
  * `game/map.ts`         — tile map, wall queries, anchor points;
  * `game/physics.ts`     — per-player integrator, projectile step, game logic;
  * `network/messages.ts` — compact 3D codec (encode/decode/input bits);
  * `game/engine.ts`      — host remote-input stepping, reconciliation, phase gate;
  * `game/input.ts`       — keyboard input manager state machine.

Numbers are embedded as rationals (`ℚ`).  JavaScript `Math.sqrt` appears in
the source only (a) inside comparisons `sqrt(d) < r`, which we embed by the
equivalent squared comparison `d < r*r` (exact for `r ≥ 0`), and (b) in the
steering/collision normalisation, where we use `ratSqrt`, exact whenever the
argument is the square of a rational — which covers every axis-aligned
trajectory evaluated in this development.
-/

namespace CtF

/-! ## Constants (game/constants.ts) -/

def TILE_SIZE : ℚ := 32
def MAP_COLS : ℤ := 40
def MAP_ROWS : ℤ := 25

def PLAYER_SPEED : ℚ := 200
def PLAYER_ACCEL : ℚ := 1600
def PLAYER_DECEL : ℚ := 1200
def PLAYER_RADIUS : ℚ := 12

def DASH_SPEED : ℚ := 500
def DASH_DURATION : ℚ := 18/100
def DASH_COOLDOWN : ℚ := 3

def FLAG_PICKUP_RADIUS : ℚ := 20
def FLAG_SCORE_RADIUS : ℚ := 24
def FLAG_RETURN_TIME : ℚ := 30
def FLAG_TOUCH_RETURN_RADIUS : ℚ := 24
def RESPAWN_TIME : ℚ := 2

def BULLET_RADIUS : ℚ := 3

def POWERUP_SPAWN_INTERVAL : ℚ := 15
def SPEED_BOOST_MULTIPLIER : ℚ := 3/2
def SPEED_BOOST_DURATION : ℚ := 5
def SHIELD_DURATION : ℚ := 8

def SCORE_TO_WIN : ℕ := 3

/-- The fixed simulation sub-step used by `updateGameLogic` / `updateProjectiles`. -/
def TICK : ℚ := 1/60

/-! ## Rational helpers -/

/-- JavaScript `Math.round` (ties toward positive infinity). -/
def jsRound (q : ℚ) : ℤ := ⌊q + 1/2⌋

/-- JavaScript `Math.sqrt`, embedded on rationals.  Exact whenever the argument
is the square of a rational (in particular on every axis-aligned velocity
difference evaluated in this development); `0` otherwise.  Distance
*comparisons* of the source are embedded by the equivalent squared form and do
not go through this function. -/
def ratSqrt (q : ℚ) : ℚ :=
  let n : ℤ := Int.sqrt q.num
  let d : ℕ := Nat.sqrt q.den
  if n * n = q.num ∧ d * d = q.den then (n : ℚ) / (d : ℚ) else 0

theorem ratSqrt_sq (a : ℚ) (h : 0 ≤ a) : ratSqrt (a * a) = a := by
  have hnum : (a * a).num = a.num * a.num := by
    rw [Rat.mul_self_num]
  have hden : (a * a).den = a.den * a.den := by
    rw [Rat.mul_self_den]
  have hanum : 0 ≤ a.num := Rat.num_nonneg.mpr h
  unfold ratSqrt
  rw [hnum, hden]
  have h1 : Int.sqrt (a.num * a.num) = a.num := by
    have := Int.sqrt_eq a.num
    rw [this, Int.natAbs_of_nonneg hanum]
  have h2 : Nat.sqrt (a.den * a.den) = a.den := by
    have := Nat.sqrt_eq' a.den
    rwa [pow_two] at this
  simp only [h1, h2, and_self, if_pos]
  rw [Rat.num_div_den]

/-- `sqrt(dx*dx + dy*dy) < r` from the source, embedded by the equivalent
squared comparison (exact for nonnegative `r`). -/
def distLt (dx dy r : ℚ) : Bool := decide (dx * dx + dy * dy < r * r)

/-- Closed integer range `[a, b]` as a list (the `for (let i = a; i <= b; i++)`
loops of the collision code). -/
def intRange (a b : ℤ) : List ℤ :=
  if a ≤ b then (List.range (b - a + 1).toNat).map (fun n => a + (n : ℤ)) else []

/-! ## Association-list helpers for string-keyed records -/

/-- Lookup in a string-keyed record (`players[id]`). -/
def lookupId {α : Type} (k : String) : List (String × α) → Option α
  | [] => none
  | (k', v) :: rest => if k' = k then some v else lookupId k rest

/-- Point update of a string-keyed record (`players[id] = ...` on an existing key). -/
def updateId {α : Type} (k : String) (f : α → α) : List (String × α) → List (String × α)
  | [] => []
  | (k', v) :: rest => if k' = k then (k', f v) :: rest else (k', v) :: updateId k f rest

theorem lookupId_updateId_self {α : Type} (k : String) (f : α → α) (l : List (String × α)) :
    lookupId k (updateId k f l) = (lookupId k l).map f := by
  induction l with
  | nil => rfl
  | cons hd tl ih =>
    obtain ⟨k', v⟩ := hd
    by_cases h : k' = k <;> simp [lookupId, updateId, h, ih]

theorem lookupId_updateId_ne {α : Type} (k k' : String) (hne : k ≠ k') (f : α → α)
    (l : List (String × α)) : lookupId k' (updateId k f l) = lookupId k' l := by
  induction l with
  | nil => rfl
  | cons hd tl ih =>
    obtain ⟨k0, v⟩ := hd
    by_cases h : k0 = k
    · subst h
      simp [lookupId, updateId, hne]
    · by_cases h' : k0 = k'
      · subst h'
        simp [lookupId, updateId, h]
      · simp [lookupId, updateId, h, h', ih]

theorem updateId_keys {α : Type} (k : String) (f : α → α) (l : List (String × α)) :
    (updateId k f l).map Prod.fst = l.map Prod.fst := by
  induction l with
  | nil => rfl
  | cons hd tl ih =>
    obtain ⟨k0, v⟩ := hd
    by_cases h : k0 = k <;> simp [updateId, h, ih]

/-! ## Basic enumerations (game/types.ts) -/

inductive Team | blue | red
deriving DecidableEq, Repr

/-- The opposing team. -/
def Team.other : Team → Team
  | .blue => .red
  | .red => .blue

inductive PState | alive | dead | carrying
deriving DecidableEq, Repr

inductive Direction
  | up | down | left | right | upLeft | upRight | downLeft | downRight | idle
deriving DecidableEq, Repr

inductive Phase | waiting | countdown | playing | gameover
deriving DecidableEq, Repr

inductive PowerUpType | speed | shield | dashReset
deriving DecidableEq, Repr

structure InputState where
  up : Bool
  down : Bool
  left : Bool
  right : Bool
  dash : Bool
  shoot : Bool
deriving DecidableEq, Repr

def InputState.none : InputState :=
  ⟨false, false, false, false, false, false⟩

/-! ## 2D data model (game/types.ts) -/

structure Player where
  id : String
  name : String
  team : Team
  x : ℚ
  y : ℚ
  vx : ℚ
  vy : ℚ
  direction : Direction
  state : PState
  health : ℚ
  dashCooldown : ℚ
  isDashing : Bool
  dashTimer : ℚ
  respawnTimer : ℚ
  shieldActive : Bool
  shieldTimer : ℚ
  speedBoostActive : Bool
  speedBoostTimer : ℚ
  shootCooldown : ℚ
  animFrame : ℕ
  animTimer : ℚ
  flashTimer : ℚ
deriving DecidableEq, Repr

structure Flag where
  team : Team
  x : ℚ
  y : ℚ
  baseX : ℚ
  baseY : ℚ
  carrierId : Option String
  dropTimer : ℚ
  animFrame : ℕ
  animTimer : ℚ
deriving DecidableEq, Repr

/-- JavaScript truthiness of `flag.carrierId` (`null` and the empty string are
falsy). -/
def Flag.carried (f : Flag) : Bool :=
  match f.carrierId with
  | Option.none => false
  | some s => !(s == "")

structure Projectile where
  id : String
  ownerId : String
  team : Team
  x : ℚ
  y : ℚ
  vx : ℚ
  vy : ℚ
  life : ℚ
deriving DecidableEq, Repr

structure PowerUp where
  id : String
  type : PowerUpType
  x : ℚ
  y : ℚ
  animTimer : ℚ
  active : Bool
deriving DecidableEq, Repr

structure EventMessage where
  text : String
  color : String
  timer : ℚ
deriving DecidableEq, Repr

structure Score where
  blue : ℕ
  red : ℕ
deriving DecidableEq, Repr

def Score.get (s : Score) : Team → ℕ
  | .blue => s.blue
  | .red => s.red

def Score.bump (s : Score) : Team → Score
  | .blue => { s with blue := s.blue + 1 }
  | .red => { s with red := s.red + 1 }

structure GameState where
  players : List (String × Player)
  blueFlag : Flag
  redFlag : Flag
  score : Score
  powerUps : List PowerUp
  projectiles : List Projectile
  events : List EventMessage
  gamePhase : Phase
  countdownTimer : ℚ
  winner : Option Team
  tick : ℕ
  powerUpSpawnTimer : ℚ
deriving DecidableEq, Repr

/-- `state.flags.blue` / `state.flags.red` selected by team. -/
def GameState.flag (s : GameState) : Team → Flag
  | .blue => s.blueFlag
  | .red => s.redFlag

def GameState.setFlag (s : GameState) : Team → Flag → GameState
  | .blue, f => { s with blueFlag := f }
  | .red, f => { s with redFlag := f }

/-! ## Map (game/map.ts) -/

/-- `MAP_STRING.trim().split('\n')`: the literal row strings of the tile map. -/
def MAP_LINES : List String :=
  [ "WWWWWWWWWWWWWWWWWWWWWWWWWWWWWWWWWWWWWWWW"
  , "W.....BB.........WW.........RR.....W"
  , "W.....BB..........  ..........RR.....W"
  , "W.....B...........  ...........R.....W"
  , "W.................  .................W"
  , "W.................  .................W"
  , "W...WWWW......          ......WWWW...W"
  , "W.................  .................W"
  , "W.......WW........  ........WW.......W"
  , "W.................  .................W"
  , "W..........            ..........W"
  , "W..........            ..........W"
  , "W.................  .................W"
  , "W.......WW........  ........WW.......W"
  , "W.................  .................W"
  , "W...WWWW......          ......WWWW...W"
  , "W.................  .................W"
  , "W.................  .................W"
  , "W.....B...........  ...........R.....W"
  , "W.....BB..........  ..........RR.....W"
  , "W.....BB.........WW.........RR.....W"
  , "WWWWWWWWWWWWWWWWWWWWWWWWWWWWWWWWWWWWWWWW" ]

/-- The character of tile `(col, row)`; columns past a row string and rows
past the map string read as floor, exactly as `parseMap` pads them. -/
def mapChar (col row : ℕ) : Char :=
  ((MAP_LINES.getD row "").toList).getD col '.'

/-- `isWall(col, row)`: out-of-bounds tiles are walls; in-bounds tiles are
walls exactly when the map character is `W` (`parseMap` code 1). -/
def isWall (col row : ℤ) : Bool :=
  if col < 0 ∨ MAP_COLS ≤ col ∨ row < 0 ∨ MAP_ROWS ≤ row then true
  else mapChar col.toNat row.toNat == 'W'

/-- `worldToTile`. -/
def worldToTile (x y : ℚ) : ℤ × ℤ := (⌊x / TILE_SIZE⌋, ⌊y / TILE_SIZE⌋)

/-- Flag/base positions (centres of the base areas). -/
def BLUE_FLAG_POS : ℚ × ℚ := (6 * TILE_SIZE + TILE_SIZE / 2, 12 * TILE_SIZE + TILE_SIZE / 2)
def RED_FLAG_POS : ℚ × ℚ := (33 * TILE_SIZE + TILE_SIZE / 2, 12 * TILE_SIZE + TILE_SIZE / 2)

def basePos : Team → ℚ × ℚ
  | .blue => BLUE_FLAG_POS
  | .red => RED_FLAG_POS

def BLUE_SPAWNS : List (ℚ × ℚ) :=
  [ (4 * TILE_SIZE + TILE_SIZE / 2, 10 * TILE_SIZE + TILE_SIZE / 2)
  , (4 * TILE_SIZE + TILE_SIZE / 2, 12 * TILE_SIZE + TILE_SIZE / 2)
  , (4 * TILE_SIZE + TILE_SIZE / 2, 14 * TILE_SIZE + TILE_SIZE / 2) ]

def RED_SPAWNS : List (ℚ × ℚ) :=
  [ (35 * TILE_SIZE + TILE_SIZE / 2, 10 * TILE_SIZE + TILE_SIZE / 2)
  , (35 * TILE_SIZE + TILE_SIZE / 2, 12 * TILE_SIZE + TILE_SIZE / 2)
  , (35 * TILE_SIZE + TILE_SIZE / 2, 14 * TILE_SIZE + TILE_SIZE / 2) ]

def POWERUP_LOCATIONS : List (ℚ × ℚ) :=
  [ (20 * TILE_SIZE + TILE_SIZE / 2, 5 * TILE_SIZE + TILE_SIZE / 2)
  , (20 * TILE_SIZE + TILE_SIZE / 2, 19 * TILE_SIZE + TILE_SIZE / 2)
  , (13 * TILE_SIZE + TILE_SIZE / 2, 12 * TILE_SIZE + TILE_SIZE / 2)
  , (27 * TILE_SIZE + TILE_SIZE / 2, 12 * TILE_SIZE + TILE_SIZE / 2)
  , (20 * TILE_SIZE + TILE_SIZE / 2, 12 * TILE_SIZE + TILE_SIZE / 2) ]

/-- Body of the `collideWithWalls` tile loop for one wall tile. -/
def collideTile (r : ℚ) (p : ℚ × ℚ) (cr : ℤ × ℤ) : ℚ × ℚ :=
  if isWall cr.1 cr.2 then
    let tileLeft : ℚ := cr.1 * TILE_SIZE
    let tileRight : ℚ := tileLeft + TILE_SIZE
    let tileTop : ℚ := cr.2 * TILE_SIZE
    let tileBottom : ℚ := tileTop + TILE_SIZE
    let closestX := max tileLeft (min p.1 tileRight)
    let closestY := max tileTop (min p.2 tileBottom)
    let dx := p.1 - closestX
    let dy := p.2 - closestY
    let dist := ratSqrt (dx * dx + dy * dy)
    if dist < r ∧ dist > 0 then
      let overlap := r - dist
      (p.1 + dx / dist * overlap, p.2 + dy / dist * overlap)
    else if dist = 0 then
      let centerX := tileLeft + TILE_SIZE / 2
      let centerY := tileTop + TILE_SIZE / 2
      let pushDx := p.1 - centerX
      let pushDy := p.2 - centerY
      let pushDist := ratSqrt (pushDx * pushDx + pushDy * pushDy)
      if pushDist > 0 then
        (centerX + pushDx / pushDist * (TILE_SIZE / 2 + r),
         centerY + pushDy / pushDist * (TILE_SIZE / 2 + r))
      else p
    else p
  else p

/-- `collideWithWalls(x, y, radius)`. -/
def collideWithWalls (x y r : ℚ) : ℚ × ℚ :=
  let minCol := ⌊(x - r) / TILE_SIZE⌋
  let maxCol := ⌊(x + r) / TILE_SIZE⌋
  let minRow := ⌊(y - r) / TILE_SIZE⌋
  let maxRow := ⌊(y + r) / TILE_SIZE⌋
  ((intRange minRow maxRow).flatMap (fun row => (intRange minCol maxCol).map
      (fun col => (col, row)))).foldl (collideTile r) (x, y)

/-! ## Per-player integrator (game/physics.ts: getDirection, updatePlayer) -/

def getDirection (input : InputState) : Direction :=
  if input.up ∧ input.left then .upLeft
  else if input.up ∧ input.right then .upRight
  else if input.down ∧ input.left then .downLeft
  else if input.down ∧ input.right then .downRight
  else if input.up then .up
  else if input.down then .down
  else if input.left then .left
  else if input.right then .right
  else .idle

/-- `updatePlayer(player, input, dt)`.  Sequential `let p := ...` rebinding
mirrors the in-place mutations of the source, in source order. -/
def updatePlayer (p : Player) (input : InputState) (dt : ℚ) : Player :=
  if p.state = .dead then
    { p with respawnTimer := p.respawnTimer - dt, vx := 0, vy := 0 }
  else
    -- Update timers
    let p : Player := if p.dashCooldown > 0 then { p with dashCooldown := p.dashCooldown - dt } else p
    let p : Player := if p.shootCooldown > 0 then { p with shootCooldown := p.shootCooldown - dt } else p
    let p : Player := if p.shieldTimer > 0 then
               let t := p.shieldTimer - dt
               { p with shieldTimer := t, shieldActive := if t ≤ 0 then false else p.shieldActive }
             else p
    let p : Player := if p.speedBoostTimer > 0 then
               let t := p.speedBoostTimer - dt
               { p with speedBoostTimer := t,
                        speedBoostActive := if t ≤ 0 then false else p.speedBoostActive }
             else p
    let p : Player := if p.flashTimer > 0 then { p with flashTimer := p.flashTimer - dt } else p
    -- Animation
    let p : Player :=
      let t := p.animTimer + dt
      if t > 2/10 then { p with animTimer := 0, animFrame := if p.animFrame = 0 then 1 else 0 }
      else { p with animTimer := t }
    -- Dash
    let p : Player := if input.dash && decide (p.dashCooldown ≤ 0) && !p.isDashing then
               { p with isDashing := true, dashTimer := DASH_DURATION,
                        dashCooldown := DASH_COOLDOWN }
             else p
    let p : Player := if p.isDashing then
               let t := p.dashTimer - dt
               { p with dashTimer := t, isDashing := if t ≤ 0 then false else p.isDashing }
             else p
    let dir := getDirection input
    let p : Player := { p with direction := if dir = Direction.idle then p.direction else dir }
    -- Target velocity
    let tx : ℚ := (if input.left then (-1 : ℚ) else 0) + (if input.right then 1 else 0)
    let ty : ℚ := (if input.up then (-1 : ℚ) else 0) + (if input.down then 1 else 0)
    let len := ratSqrt (tx * tx + ty * ty)
    let tx := if len > 0 then tx / len else tx
    let ty := if len > 0 then ty / len else ty
    let speed :=
      (if p.isDashing then DASH_SPEED else PLAYER_SPEED) *
        (if p.speedBoostActive then SPEED_BOOST_MULTIPLIER else 1)
    let tx := tx * speed
    let ty := ty * speed
    -- Acceleration / deceleration
    let accel := if len > 0 then PLAYER_ACCEL else PLAYER_DECEL
    let dvx := tx - p.vx
    let dvy := ty - p.vy
    let dvLen := ratSqrt (dvx * dvx + dvy * dvy)
    let p : Player := if dvLen > 0 then
               let change := min (accel * dt) dvLen
               { p with vx := p.vx + dvx / dvLen * change, vy := p.vy + dvy / dvLen * change }
             else p
    -- Move, then wall collision
    let pos := collideWithWalls (p.x + p.vx * dt) (p.y + p.vy * dt) PLAYER_RADIUS
    { p with x := pos.1, y := pos.2 }

/-! ## Events and kills (game/physics.ts: addEvent, killPlayer) -/

def teamName : Team → String
  | .blue => "blue"
  | .red => "red"

def teamNameUpper : Team → String
  | .blue => "BLUE"
  | .red => "RED"

/-- `player.team === 'blue' ? '#4488ff' : '#ff4444'`. -/
def teamColor : Team → String
  | .blue => "#4488ff"
  | .red => "#ff4444"

/-- `addEvent` on the raw event list: push, then shift when more than 5. -/
def pushEvent (evs : List EventMessage) (text color : String) : List EventMessage :=
  let l := evs ++ [⟨text, color, 4⟩]
  if 5 < l.length then l.tail else l

def addEvent (s : GameState) (text color : String) : GameState :=
  { s with events := pushEvent s.events text color }

/-- `killPlayer(victim, killerName, state, ...)`; `victim` is the aliased
record entry under `victimId`.  Sound/particle/camera side effects carry no
game state. -/
def killPlayer (victimId : String) (victim : Player) (killerName : String)
    (s : GameState) : GameState :=
  let s :=
    if victim.state = PState.carrying then
      let ft := victim.team.other
      let cf := s.flag ft
      s.setFlag ft { cf with x := victim.x, y := victim.y, carrierId := none,
                             dropTimer := FLAG_RETURN_TIME }
    else s
  let kill := fun (v : Player) =>
    { v with state := PState.dead, respawnTimer := RESPAWN_TIME, flashTimer := 3/10 }
  let s := { s with players := updateId victimId kill s.players }
  addEvent s (killerName ++ " eliminated " ++ victim.name ++ "!") "#ffffff"

/-! ## Projectile step (game/physics.ts: updateProjectiles) -/

/-- The hit-detection loop: first player of the enemy team, not dead, within
combined radius of the bullet. -/
def hitScan (players : List (String × Player)) (b : Projectile) : Option (String × Player) :=
  players.find? (fun kv =>
    !(kv.2.team == b.team) && !(kv.2.state == PState.dead) &&
      distLt (b.x - kv.2.x) (b.y - kv.2.y) (PLAYER_RADIUS + BULLET_RADIUS))

/-- One loop iteration of `updateProjectiles` for one bullet: move, expire,
wall-test, hit-test.  Returns the updated state and the surviving bullet, if
any. -/
def processBullet (s : GameState) (b0 : Projectile) : GameState × Option Projectile :=
  let b := { b0 with x := b0.x + b0.vx * TICK, y := b0.y + b0.vy * TICK,
                     life := b0.life - TICK }
  if b.life ≤ 0 then (s, none)
  else
    let t := worldToTile b.x b.y
    if isWall t.1 t.2 then (s, none)
    else
      match hitScan s.players b with
      | Option.none => (s, some b)
      | some (pid, p) =>
        if p.shieldActive then
          ({ s with players := updateId pid
                         (fun v => { v with shieldActive := false, shieldTimer := 0 })
                         s.players }, none)
        else
          let killerName := match lookupId b.ownerId s.players with
            | some k => k.name
            | Option.none => "Unknown"
          (killPlayer pid p killerName s, none)

/-- The reverse-iteration loop of `updateProjectiles` over a bullet list:
thread the state through `processBullet` from the last bullet to the first,
collecting survivors in their original order. -/
def projFold (l : List Projectile) (u : GameState) : GameState × List Projectile :=
  l.foldr
    (fun b acc =>
      match processBullet acc.1 b with
      | (st, Option.none) => (st, acc.2)
      | (st, some b') => (st, b' :: acc.2))
    (u, [])

/-- `updateProjectiles(state, ...)`: the source iterates the array backwards
and splices; the right fold processes the last bullet first and keeps the
survivors in their original order. -/
def updateProjectiles (s : GameState) : GameState :=
  let r := projFold s.projectiles { s with projectiles := [] }
  { r.1 with projectiles := r.2 }

theorem projFold_cons (b : Projectile) (rest : List Projectile) (u : GameState) :
    projFold (b :: rest) u =
      match processBullet (projFold rest u).1 b with
      | (st, Option.none) => (st, (projFold rest u).2)
      | (st, some b') => (st, b' :: (projFold rest u).2) := rfl

/-! ## Game logic (game/physics.ts: updateGameLogic, spawnPowerUp) -/

/-- The random draws consumed by one `updateGameLogic` call
(`Math.random()`-derived indices and the fresh power-up id). -/
structure Oracle where
  puType : Fin 3
  puLoc : Fin 5
  puId : String
  spawnIdx : String → Fin 3

def puTypeOf (i : Fin 3) : PowerUpType :=
  [PowerUpType.speed, PowerUpType.shield, PowerUpType.dashReset].getD i.val PowerUpType.speed

/-- The anchor point drawn by the oracle for this spawn. -/
def puLocOf (o : Oracle) : ℚ × ℚ := POWERUP_LOCATIONS.getD o.puLoc.val (0, 0)

/-- Whether an active power-up already sits within the 32-unit box of the
drawn anchor (the occupancy test of `spawnPowerUp`). -/
def puOccupied (o : Oracle) (pus : List PowerUp) : Bool :=
  pus.any (fun p =>
    p.active && decide (|p.x - (puLocOf o).1| < 32) && decide (|p.y - (puLocOf o).2| < 32))

/-- The power-up that `spawnPowerUp` pushes when the anchor is free. -/
def newPU (o : Oracle) : PowerUp :=
  { id := o.puId, type := puTypeOf o.puType, x := (puLocOf o).1, y := (puLocOf o).2,
    animTimer := 0, active := true }

/-- `spawnPowerUp(state)` with the random draws supplied by the oracle. -/
def spawnPowerUp (o : Oracle) (s : GameState) : GameState :=
  if puOccupied o s.powerUps then s
  else { s with powerUps := s.powerUps ++ [newPU o] }

/-- Power-up spawn timer countdown and conditional spawn (the timer is reset
before `spawnPowerUp` runs, as in the source). -/
def puTimerPhase (o : Oracle) (s : GameState) : GameState :=
  let s := { s with powerUpSpawnTimer := s.powerUpSpawnTimer - TICK }
  if s.powerUpSpawnTimer ≤ 0 ∧ (s.powerUps.filter (fun p => p.active)).length < 3 then
    spawnPowerUp o { s with powerUpSpawnTimer := POWERUP_SPAWN_INTERVAL }
  else s

def puAnimPhase (s : GameState) : GameState :=
  { s with powerUps := s.powerUps.map (fun pu =>
      if pu.active then
        let t := pu.animTimer + TICK
        if t > 1/2 then { pu with animTimer := 0 } else { pu with animTimer := t }
      else pu) }

def flagAnim (f : Flag) : Flag :=
  let t := f.animTimer + TICK
  if t > 4/10 then { f with animTimer := 0, animFrame := if f.animFrame = 0 then 1 else 0 }
  else { f with animTimer := t }

def flagAnimPhase (s : GameState) : GameState :=
  { s with blueFlag := flagAnim s.blueFlag, redFlag := flagAnim s.redFlag }

/-- Carried-flag snap to the carrier, then drop-timer countdown with
auto-return at zero, for one flag. -/
def flagCarryDrop (players : List (String × Player)) (f : Flag) : Flag :=
  let f :=
    if f.carried then
      match lookupId (f.carrierId.getD "") players with
      | some c => { f with x := c.x, y := c.y }
      | Option.none => f
    else f
  if !f.carried && decide (f.dropTimer > 0) then
    let t := f.dropTimer - TICK
    if t ≤ 0 then { f with dropTimer := t, x := f.baseX, y := f.baseY }
    else { f with dropTimer := t }
  else f

def flagPhase (s : GameState) : GameState :=
  let s := { s with blueFlag := flagCarryDrop s.players s.blueFlag }
  { s with redFlag := flagCarryDrop s.players s.redFlag }

/-- Own-flag touch return for the player iteration. -/
def touchReturnStep (s : GameState) (pid : String) : GameState :=
  match lookupId pid s.players with
  | Option.none => s
  | some p =>
    let ownFlag := s.flag p.team
    if !ownFlag.carried && decide (ownFlag.dropTimer > 0) &&
        distLt (p.x - ownFlag.x) (p.y - ownFlag.y) FLAG_TOUCH_RETURN_RADIUS then
      let s := s.setFlag p.team
        { ownFlag with x := ownFlag.baseX, y := ownFlag.baseY, dropTimer := 0 }
      addEvent s (p.name ++ " returned the " ++ teamName ownFlag.team ++ " flag!")
        (teamColor p.team)
    else s

/-- Enemy-flag pickup for the player iteration. -/
def pickupStep (s : GameState) (pid : String) : GameState :=
  match lookupId pid s.players with
  | Option.none => s
  | some p =>
    let enemyFlag := s.flag p.team.other
    if !enemyFlag.carried && (p.state == PState.alive || p.state == PState.carrying) then
      if p.state == PState.alive then
        if distLt (p.x - enemyFlag.x) (p.y - enemyFlag.y) FLAG_PICKUP_RADIUS then
          let s := s.setFlag p.team.other { enemyFlag with carrierId := some p.id }
          let toCarrying := fun (v : Player) => { v with state := PState.carrying }
          let s := { s with players := updateId pid toCarrying s.players }
          addEvent s (p.name ++ " grabbed the " ++ teamName enemyFlag.team ++ " flag!")
            (teamColor enemyFlag.team)
        else s
      else s
    else s

/-- The guard of the scoring branch: own flag uncarried and inside the
16-unit tolerance box of the own base (`ownFlagAtBase`), and the player within
`FLAG_SCORE_RADIUS` of the own base. -/
def scoreFire (s : GameState) (p : Player) : Bool :=
  (!(s.flag p.team).carried && decide (|(s.flag p.team).x - (basePos p.team).1| < 16) &&
      decide (|(s.flag p.team).y - (basePos p.team).2| < 16)) &&
    distLt (p.x - (basePos p.team).1) (p.y - (basePos p.team).2) FLAG_SCORE_RADIUS

/-- The body of the scoring branch: increment the team score, reset the enemy
flag fully, return the scorer to `alive`, emit the event, and check the win
condition. -/
def scoreApply (s : GameState) (pid : String) (p : Player) : GameState :=
  let enemyFlag := s.flag p.team.other
  let s1 := { s with score := s.score.bump p.team }
  let s2 := s1.setFlag p.team.other
    { enemyFlag with carrierId := none, x := enemyFlag.baseX, y := enemyFlag.baseY,
                     dropTimer := 0 }
  let s3 := { s2 with players := updateId pid (fun v => { v with state := PState.alive })
                        s2.players }
  let s4 := addEvent s3 (p.name ++ " SCORED for " ++ teamName p.team ++ "!") "#ffff44"
  if SCORE_TO_WIN ≤ s4.score.get p.team then
    addEvent { s4 with gamePhase := Phase.gameover, winner := some p.team }
      (teamNameUpper p.team ++ " TEAM WINS!") "#ffff44"
  else s4

/-- Scoring for the player iteration: own base reached while carrying, with
the own flag uncarried and inside the 16-unit tolerance box of the base. -/
def scoreStep (s : GameState) (pid : String) : GameState :=
  match lookupId pid s.players with
  | Option.none => s
  | some p =>
    if p.state == PState.carrying then
      if scoreFire s p then scoreApply s pid p
      else s
    else s

/-- One iteration of the power-up collection loop: deactivate a touched
active power-up and apply its effect to the player. -/
def collectPU (acc : List PowerUp × Player × List EventMessage) (pu : PowerUp) :
    List PowerUp × Player × List EventMessage :=
  let pl := acc.2.1
  if pu.active && distLt (pl.x - pu.x) (pl.y - pu.y) 20 then
    let pu' := { pu with active := false }
    match pu.type with
    | .speed => (acc.1 ++ [pu'],
        { pl with speedBoostActive := true, speedBoostTimer := SPEED_BOOST_DURATION },
        pushEvent acc.2.2 (pl.name ++ " got Speed Boost!") "#ffff44")
    | .shield => (acc.1 ++ [pu'],
        { pl with shieldActive := true, shieldTimer := SHIELD_DURATION },
        pushEvent acc.2.2 (pl.name ++ " got Shield!") "#44ffff")
    | .dashReset => (acc.1 ++ [pu'],
        { pl with dashCooldown := 0 },
        pushEvent acc.2.2 (pl.name ++ " got Dash Reset!") "#ff44ff")
  else (acc.1 ++ [pu], pl, acc.2.2)

/-- Power-up collection loop for the player iteration. -/
def powerupCollectStep (s : GameState) (pid : String) : GameState :=
  match lookupId pid s.players with
  | Option.none => s
  | some p0 =>
    let r := s.powerUps.foldl collectPU ([], p0, s.events)
    { s with powerUps := r.1, players := updateId pid (fun _ => r.2.1) s.players,
             events := r.2.2 }

/-- The state at which the scoring guard of a player iteration is evaluated:
after the touch-return and pickup sub-steps of the same iteration. -/
def checkState (s : GameState) (pid : String) : GameState :=
  pickupStep (touchReturnStep s pid) pid

/-- One iteration of the per-player loop of `updateGameLogic`: dead players
respawn (or wait) and skip the rest; everyone else runs touch-return, pickup,
scoring and power-up collection in source order. -/
def logicPlayer (o : Oracle) (s : GameState) (pid : String) : GameState :=
  match lookupId pid s.players with
  | Option.none => s
  | some p =>
    if p.state = PState.dead then
      if p.respawnTimer ≤ 0 then
        let spawns := if p.team = Team.blue then BLUE_SPAWNS else RED_SPAWNS
        let sp := spawns.getD (o.spawnIdx pid).val (0, 0)
        { s with players := updateId pid
                     (fun v => { v with x := sp.1, y := sp.2, state := PState.alive,
                                        vx := 0, vy := 0 }) s.players }
      else s
    else
      powerupCollectStep (scoreStep (checkState s pid) pid) pid

/-- Timer decay and eviction of the event feed. -/
def eventsPhase (s : GameState) : GameState :=
  let decayed := (s.events.map (fun e => { e with timer := e.timer - TICK })).filter
    (fun e => decide (e.timer > 0))
  { s with events := decayed }

/-- `updateGameLogic(state, ...)`: power-up spawn timer, animations, flag
snap/drop, the per-player loop over `Object.values(players)` in insertion
order, projectiles, event decay. -/
def preFold (o : Oracle) (s : GameState) : GameState :=
  flagPhase (flagAnimPhase (puAnimPhase (puTimerPhase o s)))

def updateGameLogic (o : Oracle) (s : GameState) : GameState :=
  let s := preFold o s
  let s := (s.players.map Prod.fst).foldl (logicPlayer o) s
  let s := updateProjectiles s
  eventsPhase s

/-! ## 3D data model (game/types.ts, 3D variant) -/

structure Player3 where
  id : String
  name : String
  team : Team
  x : ℚ
  y : ℚ
  z : ℚ
  vx : ℚ
  vy : ℚ
  vz : ℚ
  yaw : ℚ
  pitch : ℚ
  state : PState
  health : ℚ
  dashCooldown : ℚ
  isDashing : Bool
  dashTimer : ℚ
  respawnTimer : ℚ
  shieldActive : Bool
  shieldTimer : ℚ
  speedBoostActive : Bool
  speedBoostTimer : ℚ
  shootCooldown : ℚ
  flashTimer : ℚ
deriving DecidableEq, Repr

structure Flag3 where
  team : Team
  x : ℚ
  y : ℚ
  z : ℚ
  baseX : ℚ
  baseZ : ℚ
  carrierId : Option String
  dropTimer : ℚ
deriving DecidableEq, Repr

structure Projectile3 where
  id : String
  ownerId : String
  team : Team
  x : ℚ
  y : ℚ
  z : ℚ
  vx : ℚ
  vy : ℚ
  vz : ℚ
  life : ℚ
deriving DecidableEq, Repr

structure PowerUp3 where
  id : String
  type : PowerUpType
  x : ℚ
  z : ℚ
  animTimer : ℚ
  active : Bool
deriving DecidableEq, Repr

structure GameState3 where
  players : List (String × Player3)
  blueFlag : Flag3
  redFlag : Flag3
  score : Score
  powerUps : List PowerUp3
  projectiles : List Projectile3
  events : List EventMessage
  gamePhase : Phase
  countdownTimer : ℚ
  winner : Option Team
  tick : ℕ
  powerUpSpawnTimer : ℚ
deriving DecidableEq, Repr

/-! ## Compact codec (network/messages.ts, 3D variant) -/

/-- Player tuple `[x*100, z*100, yaw*1000, pitch*1000, stateBits, teamBit,
flagBits, shootCooldown*100]`. -/
structure CPlayer where
  px : ℤ
  pz : ℤ
  pyaw : ℤ
  ppitch : ℤ
  stateBits : ℕ
  teamBit : ℕ
  flagBits : ℕ
  pcool : ℤ
deriving DecidableEq, Repr

/-- Flag tuple `[x*100, z*100, carrierId, dropTimer*10]`. -/
structure CFlag where
  fx : ℤ
  fz : ℤ
  carrier : Option String
  drop : ℤ
deriving DecidableEq, Repr

/-- Power-up tuple `[type, x*100, z*100, id]`. -/
structure CPow where
  ty : ℕ
  px : ℤ
  pz : ℤ
  id : String
deriving DecidableEq, Repr

/-- Bullet tuple `[x*100, z*100, y*100, vx*10, vz*10, vy*10, teamBit]`. -/
structure CBullet where
  bx : ℤ
  bz : ℤ
  by' : ℤ
  bvx : ℤ
  bvz : ℤ
  bvy : ℤ
  teamBit : ℕ
deriving DecidableEq, Repr

structure CompactGameState where
  p : List (String × CPlayer)
  fblue : CFlag
  fred : CFlag
  s : ℕ × ℕ
  pw : List CPow
  b : List CBullet
  ph : Char
  ct : ℤ
  w : Option Team
  t : ℕ
deriving DecidableEq, Repr

def stateBitsOf : PState → ℕ
  | .alive => 0
  | .dead => 1
  | .carrying => 2

def teamBitOf : Team → ℕ
  | .blue => 0
  | .red => 1

/-- `encodeGameState(state)`. -/
def encodeGameState (st : GameState3) : CompactGameState :=
  let encPlayer := fun (p : Player3) =>
    let flagBits : ℕ := (if p.isDashing then 1 else 0) + (if p.shieldActive then 2 else 0) +
      (if p.speedBoostActive then 4 else 0)
    CPlayer.mk (jsRound (p.x * 100)) (jsRound (p.z * 100)) (jsRound (p.yaw * 1000))
      (jsRound (p.pitch * 1000)) (stateBitsOf p.state) (teamBitOf p.team) flagBits
      (jsRound (p.shootCooldown * 100))
  let encFlag := fun (f : Flag3) =>
    CFlag.mk (jsRound (f.x * 100)) (jsRound (f.z * 100)) f.carrierId
      (jsRound (f.dropTimer * 10))
  { p := st.players.map (fun kv => (kv.1, encPlayer kv.2))
  , fblue := encFlag st.blueFlag
  , fred := encFlag st.redFlag
  , s := (st.score.blue, st.score.red)
  , pw := (st.powerUps.filter (fun p => p.active)).map (fun p =>
      CPow.mk (match p.type with | .speed => 0 | .shield => 1 | .dashReset => 2)
        (jsRound (p.x * 100)) (jsRound (p.z * 100)) p.id)
  , b := st.projectiles.map (fun b =>
      CBullet.mk (jsRound (b.x * 100)) (jsRound (b.z * 100)) (jsRound (b.y * 100))
        (jsRound (b.vx * 10)) (jsRound (b.vz * 10)) (jsRound (b.vy * 10)) (teamBitOf b.team))
  , ph := match st.gamePhase with
      | .waiting => 'w'
      | .countdown => 'c'
      | .playing => 'p'
      | .gameover => 'g'
  , ct := jsRound (st.countdownTimer * 10)
  , w := st.winner
  , t := st.tick }

/-- `id.substring(0, 8)`. -/
def idTrunc (id : String) : String := id.take 8

/-- `decodeGameState(compact, existing)`: rebuild the state from the wire
tuples, merging fields absent from the wire from the `existing` state
(`existingPlayer?.f || default` for each such field). -/
def decodeGameState (c : CompactGameState) (existing : GameState3) : GameState3 :=
  let decPlayer := fun (id : String) (d : CPlayer) =>
    let ep := lookupId id existing.players
    Player3.mk id
      (match ep with
        | some e => if e.name = "" then idTrunc id else e.name
        | Option.none => idTrunc id)
      (if d.teamBit = 0 then Team.blue else Team.red)
      ((d.px : ℚ) / 100) 0 ((d.pz : ℚ) / 100)
      (match ep with | some e => e.vx | Option.none => 0) 0
      (match ep with | some e => e.vz | Option.none => 0)
      ((d.pyaw : ℚ) / 1000) ((d.ppitch : ℚ) / 1000)
      (if d.stateBits = 0 then PState.alive
        else if d.stateBits = 1 then PState.dead else PState.carrying)
      100
      (match ep with | some e => e.dashCooldown | Option.none => 0)
      (d.flagBits.land 1 ≠ 0)
      (match ep with | some e => e.dashTimer | Option.none => 0)
      (match ep with | some e => e.respawnTimer | Option.none => 0)
      (d.flagBits.land 2 ≠ 0)
      (match ep with | some e => e.shieldTimer | Option.none => 0)
      (d.flagBits.land 4 ≠ 0)
      (match ep with | some e => e.speedBoostTimer | Option.none => 0)
      ((d.pcool : ℚ) / 100)
      (match ep with | some e => e.flashTimer | Option.none => 0)
  let decFlag := fun (f : Flag3) (cf : CFlag) =>
    { f with x := (cf.fx : ℚ) / 100, z := (cf.fz : ℚ) / 100, carrierId := cf.carrier,
             dropTimer := (cf.drop : ℚ) / 10 }
  { existing with
    players := c.p.map (fun kv => (kv.1, decPlayer kv.1 kv.2))
    blueFlag := decFlag existing.blueFlag c.fblue
    redFlag := decFlag existing.redFlag c.fred
    score := Score.mk c.s.1 c.s.2
    powerUps := c.pw.map (fun pw =>
      PowerUp3.mk pw.id
        ([PowerUpType.speed, PowerUpType.shield, PowerUpType.dashReset].getD pw.ty
          PowerUpType.speed)
        ((pw.px : ℚ) / 100) ((pw.pz : ℚ) / 100) 0 true)
    projectiles := c.b.enum.map (fun ib =>
      Projectile3.mk ("net-" ++ toString ib.1) "" (if ib.2.teamBit = 0 then .blue else .red)
        ((ib.2.bx : ℚ) / 100) ((ib.2.by' : ℚ) / 100) ((ib.2.bz : ℚ) / 100)
        ((ib.2.bvx : ℚ) / 10) ((ib.2.bvy : ℚ) / 10) ((ib.2.bvz : ℚ) / 10) 1)
    gamePhase :=
      if c.ph = 'w' then Phase.waiting
      else if c.ph = 'c' then Phase.countdown
      else if c.ph = 'p' then Phase.playing else Phase.gameover
    countdownTimer := (c.ct : ℚ) / 10
    winner := c.w
    tick := c.t }

/-! ## Client reconciliation (engine.ts / 2D engine: applyRemoteState) -/

/-- 3D `applyRemoteState`: the decoded host state replaces the world
(`Object.assign`), then the locally predicted position is blended toward the
host-reported one when the divergence is below 1.5 world units, and the local
yaw/pitch are restored from the camera. -/
def applyRemoteState3 (s remote : GameState3) (localId : String)
    (camYaw camPitch : ℚ) : GameState3 :=
  match lookupId localId s.players, lookupId localId remote.players with
  | some lp, some _ =>
    let upd := fun (rp : Player3) =>
      let dx := rp.x - lp.x
      let dz := rp.z - lp.z
      let rp := if distLt dx dz (3/2) then
          { rp with x := lp.x + dx * (3/10), z := lp.z + dz * (3/10) } else rp
      { rp with yaw := camYaw, pitch := camPitch }
    { remote with players := updateId localId upd remote.players }
  | _, _ => remote

/-- 2D `applyRemoteState` (2D engine variant): threshold 50 pixels, blending
x and y; no camera angles. -/
def applyRemoteState2 (s remote : GameState) (localId : String) : GameState :=
  match lookupId localId s.players, lookupId localId remote.players with
  | some lp, some _ =>
    let upd := fun (rp : Player) =>
      let dx := rp.x - lp.x
      let dy := rp.y - lp.y
      if distLt dx dy 50 then
        { rp with x := lp.x + dx * (3/10), y := lp.y + dy * (3/10) } else rp
    { remote with players := updateId localId upd remote.players }
  | _, _ => remote

/-! ## Input manager (game/input.ts) -/

/-- `InputManager.encode()`: the directional/dash bitmask. -/
def imEncode (st : InputState) : ℕ :=
  (if st.up then 1 else 0) + (if st.down then 2 else 0) + (if st.left then 4 else 0) +
    (if st.right then 8 else 0) + (if st.dash then 16 else 0)

/-- `InputManager.decode(v)`. -/
def inputDecode (k : ℕ) : InputState :=
  { up := k.land 1 ≠ 0, down := k.land 2 ≠ 0, left := k.land 4 ≠ 0,
    right := k.land 8 ≠ 0, dash := k.land 16 ≠ 0, shoot := false }

/-- The mutable fields of `InputManager` relevant to keyboard handling
(`chatInputActive` is false and the mouse is untouched in the traces we
consider, so `shoot`/`_mouseHeld` stay false). -/
structure IMState where
  keys : List String
  dashPressed : Bool
  state : InputState
  prevEncoded : ℕ
  mouseHeld : Bool
deriving DecidableEq, Repr

def IMState.init : IMState := ⟨[], false, InputState.none, 0, false⟩

def keysInsert (k : String) (keys : List String) : List String :=
  if keys.contains k then keys else keys ++ [k]

def keysRemove (k : String) (keys : List String) : List String :=
  keys.filter (fun k' => !(k' == k))

/-- `InputManager.update()`: rebuild the input state from the key set, emit
the encoded bitmask when it changed, then reset the one-shot dash.  Returns
the new manager state and the emitted encoding, if any. -/
def imUpdate (m : IMState) : IMState × Option ℕ :=
  let newState : InputState :=
    { up := m.keys.contains "w" || m.keys.contains "arrowup"
    , down := m.keys.contains "s" || m.keys.contains "arrowdown"
    , left := m.keys.contains "a" || m.keys.contains "arrowleft"
    , right := m.keys.contains "d" || m.keys.contains "arrowright"
    , dash := m.dashPressed
    , shoot := m.mouseHeld }
  let m := { m with state := newState }
  let enc := imEncode m.state
  let r := if enc ≠ m.prevEncoded then ({ m with prevEncoded := enc }, some enc)
           else (m, Option.none)
  let m := r.1
  let m := if m.dashPressed then
      { m with dashPressed := false, state := { m.state with dash := false } } else m
  (m, r.2)

/-- `handleKeyDown` (with chat inactive): a repeated keydown of a held key
runs the same handler again, exactly as browsers deliver auto-repeat. -/
def imKeyDown (m : IMState) (k : String) : IMState × Option ℕ :=
  if k = "Enter" then (m, Option.none)
  else
    let m := { m with keys := keysInsert k.toLower m.keys }
    let m := if k = " " && !m.dashPressed then { m with dashPressed := true } else m
    imUpdate m

/-- `handleKeyUp` (with chat inactive). -/
def imKeyUp (m : IMState) (k : String) : IMState × Option ℕ :=
  let m := { m with keys := keysRemove k.toLower m.keys }
  let m := if k = " " then { m with dashPressed := false } else m
  imUpdate m

inductive KeyEv
  | down (k : String)
  | up (k : String)
deriving DecidableEq, Repr

def imStep (m : IMState) : KeyEv → IMState × Option ℕ
  | .down k => imKeyDown m k
  | .up k => imKeyUp m k

/-- Run the input manager over a browser event trace, collecting the encoded
bitmasks handed to `onInputChange` in order. -/
def imRun (m : IMState) : List KeyEv → IMState × List ℕ
  | [] => (m, [])
  | ev :: rest =>
    let r := imStep m ev
    let rr := imRun r.1 rest
    (rr.1, (match r.2 with | some e => [e] | Option.none => []) ++ rr.2)

/-! ## Engine loop pieces (game/engine.ts) -/

/-- `GameEngine.update(dt)` phase gating: the countdown branch ticks the
countdown and starts the game at zero; any phase other than `playing`
returns without touching the state; the `playing` branch (local player,
bots, remote players, game logic, tick increment — steps 2–8 of the source)
is abstracted as `playingStep`, since the claims below concern the gate. -/
def engineUpdate (playingStep : GameState → GameState) (dt : ℚ) (s : GameState) : GameState :=
  if s.gamePhase = Phase.countdown then
    let s := { s with countdownTimer := s.countdownTimer - dt }
    if s.countdownTimer ≤ 0 then { s with gamePhase := Phase.playing } else s
  else if s.gamePhase ≠ Phase.playing then s
  else playingStep s

/-- Step 5 of `GameEngine.update`: drive each remote player with the most
recently received input for its id (`this.remoteInputs`), skipping the local
player, bots and absent ids. -/
def remotePhase (localId : String) (remoteInputs : List (String × InputState)) (dt : ℚ)
    (s : GameState) : GameState :=
  remoteInputs.foldl
    (fun st kv =>
      match lookupId kv.1 st.players with
      | some p =>
        if kv.1 ≠ localId ∧ ¬(kv.1.startsWith "bot-") then
          let drive := fun (_ : Player) => updatePlayer p kv.2 dt
          { st with players := updateId kv.1 drive st.players }
        else st
      | Option.none => st)
    s

/-- The `client-input` handler of `HostManager`: store the decoded input under
the sender id.  Nothing ever clears or expires an entry. -/
def hostReceiveInput (remoteInputs : List (String × InputState)) (id : String) (k : ℕ) :
    List (String × InputState) :=
  if (lookupId id remoteInputs).isSome then
    updateId id (fun _ => inputDecode k) remoteInputs
  else remoteInputs ++ [(id, inputDecode k)]

/-- `GameEngine.removePlayer(id)`: clear the flag carrier if the departing
player carried a flag (leaving a 5 second drop timer), then delete the player. -/
def removePlayer (id : String) (s : GameState) : GameState :=
  let dropIf := fun (f : Flag) =>
    if f.carrierId = some id then { f with carrierId := none, dropTimer := 5 } else f
  let s := { s with blueFlag := dropIf s.blueFlag }
  let s := { s with redFlag := dropIf s.redFlag }
  { s with players := s.players.filter (fun kv => !(kv.1 == id)) }

/-! ## Score bookkeeping lemmas

Which parts of `updateGameLogic` can touch `state.score`: only the scoring
branch of the per-player loop. -/

theorem Score.get_bump (s : Score) (u t : Team) :
    (s.bump u).get t = if u = t then s.get t + 1 else s.get t := by
  cases u <;> cases t <;> simp [Score.bump, Score.get]

theorem setFlag_score (s : GameState) (t : Team) (f : Flag) :
    (s.setFlag t f).score = s.score := by
  cases t <;> rfl

theorem setFlag_players (s : GameState) (t : Team) (f : Flag) :
    (s.setFlag t f).players = s.players := by
  cases t <;> rfl

theorem addEvent_score (s : GameState) (a b : String) : (addEvent s a b).score = s.score := rfl

theorem addEvent_players (s : GameState) (a b : String) :
    (addEvent s a b).players = s.players := rfl

theorem puTimerPhase_score (o : Oracle) (s : GameState) :
    (puTimerPhase o s).score = s.score := by
  simp only [puTimerPhase, spawnPowerUp]
  split
  · split <;> rfl
  · rfl

theorem puAnimPhase_score (s : GameState) : (puAnimPhase s).score = s.score := rfl

theorem flagAnimPhase_score (s : GameState) : (flagAnimPhase s).score = s.score := rfl

theorem flagPhase_score (s : GameState) : (flagPhase s).score = s.score := rfl

theorem preFold_score (o : Oracle) (s : GameState) : (preFold o s).score = s.score := by
  unfold preFold
  rw [flagPhase_score, flagAnimPhase_score, puAnimPhase_score, puTimerPhase_score]

theorem touchReturnStep_score (s : GameState) (pid : String) :
    (touchReturnStep s pid).score = s.score := by
  unfold touchReturnStep
  cases lookupId pid s.players with
  | none => rfl
  | some p =>
    simp only
    split
    · rw [addEvent_score, setFlag_score]
    · rfl

theorem pickupStep_score (s : GameState) (pid : String) :
    (pickupStep s pid).score = s.score := by
  unfold pickupStep
  cases lookupId pid s.players with
  | none => rfl
  | some p =>
    simp only
    split
    · split
      · split
        · rw [addEvent_score]
          simp only [setFlag_players]
          rw [setFlag_score]
        · rfl
      · rfl
    · rfl

theorem powerupCollectStep_score (s : GameState) (pid : String) :
    (powerupCollectStep s pid).score = s.score := by
  unfold powerupCollectStep
  cases lookupId pid s.players <;> rfl

theorem checkState_score (s : GameState) (pid : String) :
    (checkState s pid).score = s.score := by
  unfold checkState
  rw [pickupStep_score, touchReturnStep_score]

theorem killPlayer_score (victimId : String) (victim : Player) (killerName : String)
    (s : GameState) : (killPlayer victimId victim killerName s).score = s.score := by
  unfold killPlayer
  rw [addEvent_score]
  split <;> simp [setFlag_score]

theorem processBullet_score (s : GameState) (b : Projectile) :
    (processBullet s b).1.score = s.score := by
  unfold processBullet
  simp only
  split
  · rfl
  · split
    · rfl
    · split
      · rfl
      · split
        · rfl
        · rw [killPlayer_score]

theorem projFold_score (l : List Projectile) (u : GameState) :
    (projFold l u).1.score = u.score := by
  induction l with
  | nil => rfl
  | cons b rest ih =>
    rw [projFold_cons]
    have hb := processBullet_score (projFold rest u).1 b
    cases hpr : processBullet (projFold rest u).1 b with
    | mk st r =>
      rw [hpr] at hb
      cases r <;> exact hb.trans ih

theorem updateProjectiles_score (s : GameState) :
    (updateProjectiles s).score = s.score := by
  unfold updateProjectiles
  simp only
  exact projFold_score s.projectiles _

theorem eventsPhase_score (s : GameState) : (eventsPhase s).score = s.score := rfl

/-- The exact condition under which the scoring branch fires for `pid` at
state `s`, and the scoring team is `t`. -/
def scoresFor (s : GameState) (pid : String) (t : Team) : Bool :=
  match lookupId pid s.players with
  | Option.none => false
  | some p => (p.team == t) && (p.state == PState.carrying) && scoreFire s p

theorem scoreApply_score (s : GameState) (pid : String) (p : Player) :
    (scoreApply s pid p).score = s.score.bump p.team := by
  unfold scoreApply
  simp only [addEvent]
  split <;> simp [setFlag_score]

theorem scoreStep_score (s : GameState) (pid : String) (t : Team) :
    (scoreStep s pid).score.get t =
      s.score.get t + (if scoresFor s pid t then 1 else 0) := by
  unfold scoreStep scoresFor
  cases hp : lookupId pid s.players with
  | none => simp
  | some p =>
    simp only
    by_cases hc : (p.state == PState.carrying) = true
    case neg => simp [hc]
    case pos =>
      rw [if_pos hc]
      by_cases hg : scoreFire s p = true
      case neg => simp [hg, hc]
      case pos =>
        rw [if_pos hg]
        rw [show (scoreApply s pid p).score.get t = (s.score.bump p.team).get t from
          congrArg (fun sc => Score.get sc t) (scoreApply_score s pid p)]
        rw [Score.get_bump]
        simp only [hc, hg, Bool.and_true, Bool.true_and]
        by_cases ht : p.team = t
        · simp [ht]
        · have hbt : (p.team == t) = false := by
            simp [ht]
          simp [hbt, ht]

/-- Whether the player iteration for `pid` reaches the scoring branch and
fires it, scoring for team `t`: the player is not dead (so the iteration does
not take the respawn path), and the scoring guard holds at the check state. -/
def logicScores (s : GameState) (pid : String) (t : Team) : Bool :=
  match lookupId pid s.players with
  | Option.none => false
  | some p =>
    if p.state = PState.dead then false else scoresFor (checkState s pid) pid t

theorem logicPlayer_score (o : Oracle) (s : GameState) (pid : String) (t : Team) :
    (logicPlayer o s pid).score.get t =
      s.score.get t + (if logicScores s pid t then 1 else 0) := by
  unfold logicPlayer logicScores
  cases hp : lookupId pid s.players with
  | none => simp
  | some p =>
    simp only
    by_cases hd : p.state = PState.dead
    · simp only [hd, if_true]
      split <;> simp
    · simp only [hd, if_false]
      rw [show (powerupCollectStep (scoreStep (checkState s pid) pid) pid).score
            = (scoreStep (checkState s pid) pid).score from powerupCollectStep_score _ _]
      rw [scoreStep_score]
      rw [show (checkState s pid).score = s.score from checkState_score s pid]

theorem foldl_logic_score (o : Oracle) (t : Team) :
    ∀ (L : List String) (s : GameState),
      (L.foldl (logicPlayer o) s).score.get t ≠ s.score.get t →
      ∃ l1 pid l2, L = l1 ++ pid :: l2 ∧
        logicScores (l1.foldl (logicPlayer o) s) pid t = true := by
  intro L
  induction L with
  | nil => intro s h; exact absurd rfl h
  | cons k rest ih =>
    intro s h
    by_cases hk : logicScores s k t = true
    · exact ⟨[], k, rest, rfl, by simpa using hk⟩
    · have hkeep : (logicPlayer o s k).score.get t = s.score.get t := by
        rw [logicPlayer_score]
        simp [hk]
      have h' : (rest.foldl (logicPlayer o) (logicPlayer o s k)).score.get t
          ≠ (logicPlayer o s k).score.get t := by
        rw [hkeep]
        simpa [List.foldl] using h
      obtain ⟨l1, pid, l2, hsplit, hguard⟩ := ih (logicPlayer o s k) h'
      exact ⟨k :: l1, pid, l2, by simp [hsplit], by simpa [List.foldl] using hguard⟩

theorem updateGameLogic_score_eq_fold (o : Oracle) (s : GameState) :
    (updateGameLogic o s).score =
      (((preFold o s).players.map Prod.fst).foldl (logicPlayer o) (preFold o s)).score := by
  unfold updateGameLogic
  simp only
  rw [eventsPhase_score, updateProjectiles_score]

/-- C1: a score increment for team `t` during one `updateGameLogic` call can
only come from a player iteration whose scoring check passed: at that moment
the player is of team `t`, in `carrying` state, within `FLAG_SCORE_RADIUS` of
its own base, and the team flag is uncarried with both coordinates within the
16-unit tolerance box of the base position. -/
theorem updateGameLogic_score_increment_guard (o : Oracle) (s : GameState) (t : Team)
    (h : (updateGameLogic o s).score.get t ≠ s.score.get t) :
    ∃ l1 pid l2 p,
      ((preFold o s).players.map Prod.fst : List String) = l1 ++ pid :: l2 ∧
      lookupId pid (checkState (l1.foldl (logicPlayer o) (preFold o s)) pid).players
        = some p ∧
      p.team = t ∧ p.state = PState.carrying ∧
      ((checkState (l1.foldl (logicPlayer o) (preFold o s)) pid).flag t).carried = false ∧
      |((checkState (l1.foldl (logicPlayer o) (preFold o s)) pid).flag t).x - (basePos t).1|
        < 16 ∧
      |((checkState (l1.foldl (logicPlayer o) (preFold o s)) pid).flag t).y - (basePos t).2|
        < 16 ∧
      (p.x - (basePos t).1) * (p.x - (basePos t).1) +
          (p.y - (basePos t).2) * (p.y - (basePos t).2)
        < FLAG_SCORE_RADIUS * FLAG_SCORE_RADIUS := by
  have hfold : (((preFold o s).players.map Prod.fst).foldl (logicPlayer o)
      (preFold o s)).score.get t ≠ (preFold o s).score.get t := by
    rw [show (preFold o s).score = s.score from preFold_score o s]
    rw [← updateGameLogic_score_eq_fold]
    exact h
  obtain ⟨l1, pid, l2, hsplit, hguard⟩ :=
    foldl_logic_score o t ((preFold o s).players.map Prod.fst) (preFold o s) hfold
  unfold logicScores at hguard
  set mid := l1.foldl (logicPlayer o) (preFold o s) with hmid
  cases hq : lookupId pid mid.players with
  | none => rw [hq] at hguard; simp at hguard
  | some q =>
    rw [hq] at hguard
    by_cases hd : q.state = PState.dead
    · simp only [hd, if_true] at hguard
      simp at hguard
    · simp only [hd, if_false] at hguard
      unfold scoresFor at hguard
      cases hp : lookupId pid (checkState mid pid).players with
      | none => rw [hp] at hguard; simp at hguard
      | some p =>
        rw [hp] at hguard
        simp only [Bool.and_eq_true, beq_iff_eq] at hguard
        obtain ⟨⟨hteam, hcarrying⟩, hfire⟩ := hguard
        unfold scoreFire at hfire
        rw [hteam] at hfire
        simp only [Bool.and_eq_true, Bool.not_eq_true', decide_eq_true_eq] at hfire
        obtain ⟨⟨⟨hunc, habsx⟩, habsy⟩, hdist⟩ := hfire
        unfold distLt at hdist
        rw [decide_eq_true_eq] at hdist
        exact ⟨l1, pid, l2, p, hsplit, hp, hteam, hcarrying, hunc, habsx, habsy, hdist⟩

/-! ## Concrete fixtures used by witnesses and counterexamples -/

/-- A baseline player for concrete scenarios. -/
def mkPlayer (id name : String) (team : Team) (x y : ℚ) (st : PState) : Player :=
  { id := id, name := name, team := team, x := x, y := y, vx := 0, vy := 0,
    direction := Direction.right, state := st, health := 100, dashCooldown := 0,
    isDashing := false, dashTimer := 0, respawnTimer := 0, shieldActive := false,
    shieldTimer := 0, speedBoostActive := false, speedBoostTimer := 0,
    shootCooldown := 0, animFrame := 0, animTimer := 0, flashTimer := 0 }

/-- A baseline flag for concrete scenarios. -/
def mkFlag (team : Team) (x y bx byy : ℚ) : Flag :=
  { team := team, x := x, y := y, baseX := bx, baseY := byy, carrierId := none,
    dropTimer := 0, animFrame := 0, animTimer := 0 }

def wOracle : Oracle := ⟨0, 0, "pu-w", fun _ => 0⟩

/-- A blue carrier standing at the blue base with the blue flag home and the
red flag on the carrier: the scoring branch fires. -/
def wScoreState : GameState :=
  { players := [("a", mkPlayer "a" "Alice" Team.blue 210 402 PState.carrying)]
  , blueFlag := mkFlag Team.blue 208 400 208 400
  , redFlag := { mkFlag Team.red 210 402 1072 400 with carrierId := some "a" }
  , score := ⟨0, 0⟩, powerUps := [], projectiles := [], events := []
  , gamePhase := Phase.playing, countdownTimer := 0, winner := none, tick := 0
  , powerUpSpawnTimer := 15 }

/-- Witness for the score-increment guard: a state whose call does increment
the blue score. -/
theorem updateGameLogic_score_increment_guard_witness :
    (updateGameLogic wOracle wScoreState).score.get Team.blue
        ≠ wScoreState.score.get Team.blue ∧
      ∃ l1 pid l2 p,
        ((preFold wOracle wScoreState).players.map Prod.fst : List String)
            = l1 ++ pid :: l2 ∧
        lookupId pid (checkState (l1.foldl (logicPlayer wOracle)
            (preFold wOracle wScoreState)) pid).players = some p ∧
        p.team = Team.blue ∧ p.state = PState.carrying ∧
        ((checkState (l1.foldl (logicPlayer wOracle) (preFold wOracle wScoreState))
            pid).flag Team.blue).carried = false ∧
        |((checkState (l1.foldl (logicPlayer wOracle) (preFold wOracle wScoreState))
            pid).flag Team.blue).x - (basePos Team.blue).1| < 16 ∧
        |((checkState (l1.foldl (logicPlayer wOracle) (preFold wOracle wScoreState))
            pid).flag Team.blue).y - (basePos Team.blue).2| < 16 ∧
        (p.x - (basePos Team.blue).1) * (p.x - (basePos Team.blue).1) +
            (p.y - (basePos Team.blue).2) * (p.y - (basePos Team.blue).2)
          < FLAG_SCORE_RADIUS * FLAG_SCORE_RADIUS := by
  have h1 : (updateGameLogic wOracle wScoreState).score.get Team.blue = 1 := by
    with_unfolding_all rfl
  have h0 : wScoreState.score.get Team.blue = 0 := rfl
  have hne : (updateGameLogic wOracle wScoreState).score.get Team.blue
      ≠ wScoreState.score.get Team.blue := by
    rw [h1, h0]
    exact one_ne_zero
  exact ⟨hne, updateGameLogic_score_increment_guard wOracle wScoreState Team.blue hne⟩

/-- A state where player `a` carries the red flag and `b` carries the blue. -/
def wRemState : GameState :=
  { players := [("a", mkPlayer "a" "Alice" Team.blue 300 400 PState.carrying),
                ("b", mkPlayer "b" "Bob" Team.red 500 400 PState.carrying)]
  , blueFlag := { mkFlag Team.blue 500 400 208 400 with carrierId := some "b" }
  , redFlag := { mkFlag Team.red 300 400 1072 400 with carrierId := some "a" }
  , score := ⟨0, 0⟩, powerUps := [], projectiles := [], events := []
  , gamePhase := Phase.playing, countdownTimer := 0, winner := none, tick := 0
  , powerUpSpawnTimer := 15 }

theorem lookupId_filter_ne {α : Type} (c id : String) (hne : c ≠ id)
    (l : List (String × α)) :
    lookupId c (l.filter (fun kv => !(kv.1 == id))) = lookupId c l := by
  induction l with
  | nil => rfl
  | cons hd tl ih =>
    obtain ⟨k, v⟩ := hd
    by_cases hk : k = id
    · subst hk
      simp only [List.filter, beq_self_eq_true, Bool.not_true]
      rw [ih]
      simp [lookupId, Ne.symm hne]
    · by_cases hc : k = c
      · subst hc
        simp only [List.filter]
        have : (k == id) = false := by simp [hk]
        simp [this, lookupId]
      · simp only [List.filter]
        have : (k == id) = false := by simp [hk]
        simp [this, lookupId, hc, ih]

/-- C10: after `removePlayer(id)` no flag is carried by `id`; every carrier
reference that was valid stays valid (or was cleared); and a flag that `id`
was carrying is left uncarried at its current position with a 5 second drop
timer. -/
theorem removePlayer_no_dangling_carrier (s : GameState) (id : String)
    (hblue : ∀ c, s.blueFlag.carrierId = some c → c ≠ id →
      (lookupId c s.players).isSome)
    (hred : ∀ c, s.redFlag.carrierId = some c → c ≠ id →
      (lookupId c s.players).isSome) :
    ((removePlayer id s).blueFlag.carrierId ≠ some id ∧
      (removePlayer id s).redFlag.carrierId ≠ some id) ∧
    (∀ c, (removePlayer id s).blueFlag.carrierId = some c →
      (lookupId c (removePlayer id s).players).isSome) ∧
    (∀ c, (removePlayer id s).redFlag.carrierId = some c →
      (lookupId c (removePlayer id s).players).isSome) ∧
    (s.blueFlag.carrierId = some id →
      (removePlayer id s).blueFlag = { s.blueFlag with carrierId := none, dropTimer := 5 }) ∧
    (s.redFlag.carrierId = some id →
      (removePlayer id s).redFlag = { s.redFlag with carrierId := none, dropTimer := 5 }) ∧
    (5 : ℚ) > 0 := by
  have hbf : (removePlayer id s).blueFlag =
      (if s.blueFlag.carrierId = some id then
        { s.blueFlag with carrierId := none, dropTimer := 5 } else s.blueFlag) := rfl
  have hrf : (removePlayer id s).redFlag =
      (if s.redFlag.carrierId = some id then
        { s.redFlag with carrierId := none, dropTimer := 5 } else s.redFlag) := rfl
  have hpl : (removePlayer id s).players =
      s.players.filter (fun kv => !(kv.1 == id)) := rfl
  refine ⟨⟨?_, ?_⟩, ?_, ?_, ?_, ?_, by norm_num⟩
  · rw [hbf]
    split
    · simp
    · rename_i hne
      exact hne
  · rw [hrf]
    split
    · simp
    · rename_i hne
      exact hne
  · intro c hc
    rw [hbf] at hc
    rw [hpl]
    split at hc
    · simp at hc
    · rename_i hne
      have hcne : c ≠ id := by
        intro h
        rw [h] at hc
        exact hne hc
      rw [lookupId_filter_ne c id hcne]
      exact hblue c hc hcne
  · intro c hc
    rw [hrf] at hc
    rw [hpl]
    split at hc
    · simp at hc
    · rename_i hne
      have hcne : c ≠ id := by
        intro h
        rw [h] at hc
        exact hne hc
      rw [lookupId_filter_ne c id hcne]
      exact hred c hc hcne
  · intro h
    rw [hbf, if_pos h]
  · intro h
    rw [hrf, if_pos h]

/-- Witness for C10: a concrete two-flag state where the departing player
carries the red flag. -/
theorem removePlayer_no_dangling_carrier_witness :
    (∀ c, wRemState.blueFlag.carrierId = some c → c ≠ "a" →
      (lookupId c wRemState.players).isSome) ∧
    ((removePlayer "a" wRemState).redFlag.carrierId ≠ some "a" ∧
      (removePlayer "a" wRemState).redFlag =
        { wRemState.redFlag with carrierId := none, dropTimer := 5 }) := by
  constructor
  · intro c hc _
    have : c = "b" := by
      have : some "b" = some c := by
        rw [← hc]
        with_unfolding_all rfl
      simpa using this.symm
    subst this
    with_unfolding_all rfl
  · have h := removePlayer_no_dangling_carrier wRemState "a"
      (by
        intro c hc hcne
        have : c = "b" := by
          have : some "b" = some c := by
            rw [← hc]
            with_unfolding_all rfl
          simpa using this.symm
        subst this
        with_unfolding_all rfl)
      (by
        intro c hc hcne
        have hca : c = "a" := by
          have : some "a" = some c := by
            rw [← hc]
            with_unfolding_all rfl
          simpa using this.symm
        exact absurd hca hcne)
    exact ⟨h.1.2, h.2.2.2.2.1 (by with_unfolding_all rfl)⟩

/-- C6: when the local player exists in both the predicted and the decoded
host state and the divergence is strictly below the threshold (50 world units
in 2D, 1.5 in 3D), the reconciled position is
`P_local + (P_host - P_local) * 0.3` in each planar coordinate. -/
theorem applyRemoteState_soft_correction
    (s2 r2 : GameState) (localId : String) (lp2 rp2 : Player)
    (h1 : lookupId localId s2.players = some lp2)
    (h2 : lookupId localId r2.players = some rp2)
    (hd2 : (rp2.x - lp2.x) * (rp2.x - lp2.x) + (rp2.y - lp2.y) * (rp2.y - lp2.y) < 50 * 50)
    (s3 r3 : GameState3) (lp3 rp3 : Player3) (camYaw camPitch : ℚ)
    (h3 : lookupId localId s3.players = some lp3)
    (h4 : lookupId localId r3.players = some rp3)
    (hd3 : (rp3.x - lp3.x) * (rp3.x - lp3.x) + (rp3.z - lp3.z) * (rp3.z - lp3.z)
      < (3/2) * (3/2)) :
    (∃ p, lookupId localId (applyRemoteState2 s2 r2 localId).players = some p ∧
      p.x = lp2.x + (rp2.x - lp2.x) * (3/10) ∧ p.y = lp2.y + (rp2.y - lp2.y) * (3/10)) ∧
    (∃ p, lookupId localId (applyRemoteState3 s3 r3 localId camYaw camPitch).players
        = some p ∧
      p.x = lp3.x + (rp3.x - lp3.x) * (3/10) ∧ p.z = lp3.z + (rp3.z - lp3.z) * (3/10)) := by
  have hif2 : distLt (rp2.x - lp2.x) (rp2.y - lp2.y) 50 = true := decide_eq_true hd2
  have hif3 : distLt (rp3.x - lp3.x) (rp3.z - lp3.z) (3/2) = true := decide_eq_true hd3
  constructor
  · unfold applyRemoteState2
    rw [h1, h2]
    simp only
    rw [lookupId_updateId_self, h2]
    refine ⟨_, rfl, ?_, ?_⟩ <;>
      simp only [hif2, if_true]
  · unfold applyRemoteState3
    rw [h3, h4]
    simp only
    rw [lookupId_updateId_self, h4]
    refine ⟨_, rfl, ?_, ?_⟩ <;>
      simp only [hif3, if_true]

def wLocal2 : GameState :=
  { players := [("me", mkPlayer "me" "Me" Team.blue 100 100 PState.alive)]
  , blueFlag := mkFlag Team.blue 208 400 208 400
  , redFlag := mkFlag Team.red 1072 400 1072 400
  , score := ⟨0, 0⟩, powerUps := [], projectiles := [], events := []
  , gamePhase := Phase.playing, countdownTimer := 0, winner := none, tick := 0
  , powerUpSpawnTimer := 15 }

def wRemote2 : GameState :=
  { wLocal2 with players := [("me", mkPlayer "me" "Me" Team.blue 103 104 PState.alive)] }

def mkPlayer3 (id name : String) (team : Team) (x z : ℚ) : Player3 :=
  { id := id, name := name, team := team, x := x, y := 0, z := z, vx := 0, vy := 0,
    vz := 0, yaw := 0, pitch := 0, state := PState.alive, health := 100,
    dashCooldown := 0, isDashing := false, dashTimer := 0, respawnTimer := 0,
    shieldActive := false, shieldTimer := 0, speedBoostActive := false,
    speedBoostTimer := 0, shootCooldown := 0, flashTimer := 0 }

def mkFlag3 (team : Team) (x z bx bz : ℚ) : Flag3 :=
  { team := team, x := x, y := 0, z := z, baseX := bx, baseZ := bz, carrierId := none,
    dropTimer := 0 }

def wLocal3 : GameState3 :=
  { players := [("me", mkPlayer3 "me" "Me" Team.blue 4 4)]
  , blueFlag := mkFlag3 Team.blue (13/2) (25/2) (13/2) (25/2)
  , redFlag := mkFlag3 Team.red (67/2) (25/2) (67/2) (25/2)
  , score := ⟨0, 0⟩, powerUps := [], projectiles := [], events := []
  , gamePhase := Phase.playing, countdownTimer := 0, winner := none, tick := 0
  , powerUpSpawnTimer := 15 }

def wRemote3 : GameState3 :=
  { wLocal3 with players := [("me", mkPlayer3 "me" "Me" Team.blue (9/2) (21/5))] }

/-- Witness for the reconciliation blend at concrete diverged positions. -/
theorem applyRemoteState_soft_correction_witness :
    (3 - 0) * (3 - 0) + (4 - 0) * (4 - 0) < (50 : ℚ) * 50 ∧
    ((∃ p, lookupId "me" (applyRemoteState2 wLocal2 wRemote2 "me").players = some p ∧
      p.x = 100 + (103 - 100) * (3/10) ∧ p.y = 100 + (104 - 100) * (3/10)) ∧
     (∃ p, lookupId "me" (applyRemoteState3 wLocal3 wRemote3 "me" 1 2).players = some p ∧
      p.x = 4 + (9/2 - 4) * (3/10) ∧ p.z = 4 + (21/5 - 4) * (3/10))) := by
  constructor
  · norm_num
  · exact applyRemoteState_soft_correction wLocal2 wRemote2 "me" _ _
      (by with_unfolding_all rfl) (by with_unfolding_all rfl) (by norm_num [mkPlayer])
      wLocal3 wRemote3 _ _ 1 2
      (by with_unfolding_all rfl) (by with_unfolding_all rfl) (by norm_num [mkPlayer3])

/-! ## Power-up bookkeeping lemmas -/

/-- The number of active power-ups in a list. -/
def activeCount (l : List PowerUp) : ℕ := (l.filter (fun p => p.active)).length

theorem activeCount_append (l1 l2 : List PowerUp) :
    activeCount (l1 ++ l2) = activeCount l1 + activeCount l2 := by
  unfold activeCount
  rw [List.filter_append, List.length_append]

theorem setFlag_powerUps (s : GameState) (t : Team) (f : Flag) :
    (s.setFlag t f).powerUps = s.powerUps := by
  cases t <;> rfl

theorem setFlag_puTimer (s : GameState) (t : Team) (f : Flag) :
    (s.setFlag t f).powerUpSpawnTimer = s.powerUpSpawnTimer := by
  cases t <;> rfl

theorem filter_length_map_of_active (g : PowerUp → PowerUp)
    (hg : ∀ pu, (g pu).active = pu.active) (l : List PowerUp) :
    ((l.map g).filter (fun p => p.active)).length
      = (l.filter (fun p => p.active)).length := by
  induction l with
  | nil => rfl
  | cons pu rest ih =>
    rw [List.map_cons, List.filter_cons, List.filter_cons]
    simp only [hg]
    cases pu.active <;> simp [ih]

theorem puAnimPhase_active (s : GameState) :
    (puAnimPhase s).powerUps.length = s.powerUps.length ∧
      activeCount (puAnimPhase s).powerUps = activeCount s.powerUps := by
  constructor
  · unfold puAnimPhase
    exact List.length_map _ _
  · unfold puAnimPhase activeCount
    simp only
    apply filter_length_map_of_active
    intro pu
    dsimp only
    split
    · split <;> rfl
    · rfl

theorem touchReturnStep_powerUps (s : GameState) (pid : String) :
    (touchReturnStep s pid).powerUps = s.powerUps ∧
      (touchReturnStep s pid).powerUpSpawnTimer = s.powerUpSpawnTimer := by
  unfold touchReturnStep
  cases lookupId pid s.players with
  | none => exact ⟨rfl, rfl⟩
  | some p =>
    simp only
    split
    · constructor
      · rw [show (addEvent (s.setFlag p.team _) _ _).powerUps
            = (s.setFlag p.team _).powerUps from rfl, setFlag_powerUps]
      · rw [show (addEvent (s.setFlag p.team _) _ _).powerUpSpawnTimer
            = (s.setFlag p.team _).powerUpSpawnTimer from rfl, setFlag_puTimer]
    · exact ⟨rfl, rfl⟩

theorem pickupStep_powerUps (s : GameState) (pid : String) :
    (pickupStep s pid).powerUps = s.powerUps ∧
      (pickupStep s pid).powerUpSpawnTimer = s.powerUpSpawnTimer := by
  unfold pickupStep
  cases lookupId pid s.players with
  | none => exact ⟨rfl, rfl⟩
  | some p =>
    simp only
    split
    · split
      · split
        · constructor
          · rw [show ∀ (u : GameState) (l : List (String × Player)) (a b : String),
                (addEvent { u with players := l } a b).powerUps = u.powerUps from
                fun _ _ _ _ => rfl, setFlag_powerUps]
          · rw [show ∀ (u : GameState) (l : List (String × Player)) (a b : String),
                (addEvent { u with players := l } a b).powerUpSpawnTimer
                  = u.powerUpSpawnTimer from fun _ _ _ _ => rfl, setFlag_puTimer]
        · exact ⟨rfl, rfl⟩
      · exact ⟨rfl, rfl⟩
    · exact ⟨rfl, rfl⟩

theorem scoreApply_powerUps (s : GameState) (pid : String) (p : Player) :
    (scoreApply s pid p).powerUps = s.powerUps ∧
      (scoreApply s pid p).powerUpSpawnTimer = s.powerUpSpawnTimer := by
  unfold scoreApply
  simp only [addEvent]
  constructor
  · split <;> simp [setFlag_powerUps]
  · split <;> simp [setFlag_puTimer]

theorem scoreStep_powerUps (s : GameState) (pid : String) :
    (scoreStep s pid).powerUps = s.powerUps ∧
      (scoreStep s pid).powerUpSpawnTimer = s.powerUpSpawnTimer := by
  unfold scoreStep
  cases lookupId pid s.players with
  | none => exact ⟨rfl, rfl⟩
  | some p =>
    simp only
    split
    · split
      · exact scoreApply_powerUps s pid p
      · exact ⟨rfl, rfl⟩
    · exact ⟨rfl, rfl⟩

theorem collectPU_spec (acc : List PowerUp × Player × List EventMessage) (pu : PowerUp) :
    (collectPU acc pu).1.length = acc.1.length + 1 ∧
      activeCount (collectPU acc pu).1 ≤ activeCount acc.1 + activeCount [pu] := by
  unfold collectPU
  simp only
  split
  · rename_i hact
    split <;>
    · refine ⟨by simp, ?_⟩
      rw [activeCount_append]
      have : activeCount [{ pu with active := false }] = 0 := by
        unfold activeCount
        simp [List.filter]
      rw [this]
      exact Nat.le_add_right _ _
  · refine ⟨by simp, ?_⟩
    rw [activeCount_append]

theorem collectFold_spec (pus : List PowerUp) :
    ∀ (acc : List PowerUp × Player × List EventMessage),
      (pus.foldl collectPU acc).1.length = acc.1.length + pus.length ∧
        activeCount (pus.foldl collectPU acc).1 ≤ activeCount acc.1 + activeCount pus := by
  induction pus with
  | nil => intro acc; exact ⟨rfl, le_refl _⟩
  | cons pu rest ih =>
    intro acc
    simp only [List.foldl]
    obtain ⟨ihl, ihc⟩ := ih (collectPU acc pu)
    obtain ⟨cl, cc⟩ := collectPU_spec acc pu
    constructor
    · rw [ihl, cl, List.length_cons]
      omega
    · have : activeCount (pu :: rest) = activeCount [pu] + activeCount rest := by
        rw [show pu :: rest = [pu] ++ rest from rfl, activeCount_append]
      rw [this]
      calc activeCount (rest.foldl collectPU (collectPU acc pu)).1
          ≤ activeCount (collectPU acc pu).1 + activeCount rest := ihc
        _ ≤ (activeCount acc.1 + activeCount [pu]) + activeCount rest :=
            Nat.add_le_add_right cc _
        _ = activeCount acc.1 + (activeCount [pu] + activeCount rest) := by omega

theorem powerupCollectStep_powerUps (s : GameState) (pid : String) :
    (powerupCollectStep s pid).powerUps.length = s.powerUps.length ∧
      activeCount (powerupCollectStep s pid).powerUps ≤ activeCount s.powerUps ∧
      (powerupCollectStep s pid).powerUpSpawnTimer = s.powerUpSpawnTimer := by
  unfold powerupCollectStep
  cases lookupId pid s.players with
  | none => exact ⟨rfl, le_refl _, rfl⟩
  | some p0 =>
    simp only
    obtain ⟨hl, hc⟩ := collectFold_spec s.powerUps (([], p0, s.events))
    refine ⟨?_, ?_, by trivial⟩
    · simpa using hl
    · simpa [activeCount] using hc

theorem logicPlayer_powerUps (o : Oracle) (s : GameState) (pid : String) :
    (logicPlayer o s pid).powerUps.length = s.powerUps.length ∧
      activeCount (logicPlayer o s pid).powerUps ≤ activeCount s.powerUps ∧
      (logicPlayer o s pid).powerUpSpawnTimer = s.powerUpSpawnTimer := by
  unfold logicPlayer
  cases lookupId pid s.players with
  | none => exact ⟨rfl, le_refl _, rfl⟩
  | some p =>
    simp only
    split
    · split
      · exact ⟨rfl, le_refl _, rfl⟩
      · exact ⟨rfl, le_refl _, rfl⟩
    · obtain ⟨h1, h2, h3⟩ :=
        powerupCollectStep_powerUps (scoreStep (checkState s pid) pid) pid
      obtain ⟨h4, h5⟩ := scoreStep_powerUps (checkState s pid) pid
      have h6 := pickupStep_powerUps (touchReturnStep s pid) pid
      have h7 := touchReturnStep_powerUps s pid
      have hchkU : (checkState s pid).powerUps = s.powerUps := by
        unfold checkState
        rw [h6.1, h7.1]
      have hchkT : (checkState s pid).powerUpSpawnTimer = s.powerUpSpawnTimer := by
        unfold checkState
        rw [h6.2, h7.2]
      refine ⟨?_, ?_, ?_⟩
      · rw [h1, h4, hchkU]
      · rw [h4, hchkU] at h2
        exact h2
      · rw [h3, h5, hchkT]

theorem foldl_logic_powerUps (o : Oracle) :
    ∀ (L : List String) (s : GameState),
      (L.foldl (logicPlayer o) s).powerUps.length = s.powerUps.length ∧
        activeCount (L.foldl (logicPlayer o) s).powerUps ≤ activeCount s.powerUps ∧
        (L.foldl (logicPlayer o) s).powerUpSpawnTimer = s.powerUpSpawnTimer := by
  intro L
  induction L with
  | nil => intro s; exact ⟨rfl, le_refl _, rfl⟩
  | cons k rest ih =>
    intro s
    simp only [List.foldl]
    obtain ⟨i1, i2, i3⟩ := ih (logicPlayer o s k)
    obtain ⟨j1, j2, j3⟩ := logicPlayer_powerUps o s k
    exact ⟨by rw [i1, j1], le_trans i2 j2, by rw [i3, j3]⟩

theorem processBullet_powerUps (s : GameState) (b : Projectile) :
    (processBullet s b).1.powerUps = s.powerUps ∧
      (processBullet s b).1.powerUpSpawnTimer = s.powerUpSpawnTimer := by
  unfold processBullet
  simp only
  split
  · exact ⟨rfl, rfl⟩
  · split
    · exact ⟨rfl, rfl⟩
    · split
      · exact ⟨rfl, rfl⟩
      · split
        · exact ⟨rfl, rfl⟩
        · unfold killPlayer
          constructor
          · rw [show ∀ (u : GameState) (l : List (String × Player)) (a b : String),
                (addEvent { u with players := l } a b).powerUps = u.powerUps from
                fun _ _ _ _ => rfl]
            split <;> simp [setFlag_powerUps]
          · rw [show ∀ (u : GameState) (l : List (String × Player)) (a b : String),
                (addEvent { u with players := l } a b).powerUpSpawnTimer
                  = u.powerUpSpawnTimer from fun _ _ _ _ => rfl]
            split <;> simp [setFlag_puTimer]

theorem projFold_powerUps (l : List Projectile) (u : GameState) :
    (projFold l u).1.powerUps = u.powerUps ∧
      (projFold l u).1.powerUpSpawnTimer = u.powerUpSpawnTimer := by
  induction l with
  | nil => exact ⟨rfl, rfl⟩
  | cons b rest ih =>
    rw [projFold_cons]
    have hb := processBullet_powerUps (projFold rest u).1 b
    cases hpr : processBullet (projFold rest u).1 b with
    | mk st r =>
      rw [hpr] at hb
      cases r <;>
        exact ⟨hb.1.trans ih.1, hb.2.trans ih.2⟩

theorem updateProjectiles_powerUps (s : GameState) :
    (updateProjectiles s).powerUps = s.powerUps ∧
      (updateProjectiles s).powerUpSpawnTimer = s.powerUpSpawnTimer := by
  unfold updateProjectiles
  simp only
  exact projFold_powerUps s.projectiles _

theorem puTimerPhase_fires (o : Oracle) (s : GameState)
    (hcross : s.powerUpSpawnTimer - TICK ≤ 0)
    (hcount : activeCount s.powerUps < 3) :
    (puTimerPhase o s).powerUpSpawnTimer = POWERUP_SPAWN_INTERVAL ∧
      (puTimerPhase o s).powerUps =
        (if puOccupied o s.powerUps then s.powerUps else s.powerUps ++ [newPU o]) := by
  unfold puTimerPhase spawnPowerUp
  simp only
  rw [if_pos ⟨hcross, hcount⟩]
  split <;> exact ⟨rfl, rfl⟩

theorem puTimerPhase_activeCount_le (o : Oracle) (s : GameState)
    (h : activeCount s.powerUps ≤ 3) :
    activeCount (puTimerPhase o s).powerUps ≤ 3 := by
  unfold puTimerPhase spawnPowerUp
  simp only
  split
  · rename_i hcond
    split
    · exact h
    · rw [activeCount_append]
      have h1 : activeCount [newPU o] = 1 := by
        unfold activeCount newPU
        simp [List.filter]
      rw [h1]
      have := hcond.2
      unfold activeCount at *
      omega
  · exact h

theorem updateGameLogic_powerUps_chain (o : Oracle) (s : GameState) :
    (updateGameLogic o s).powerUps.length = (puTimerPhase o s).powerUps.length ∧
      activeCount (updateGameLogic o s).powerUps ≤ activeCount (puTimerPhase o s).powerUps ∧
      (updateGameLogic o s).powerUpSpawnTimer = (puTimerPhase o s).powerUpSpawnTimer := by
  have hrepr : updateGameLogic o s =
      eventsPhase (updateProjectiles
        (((preFold o s).players.map Prod.fst).foldl (logicPlayer o) (preFold o s))) := rfl
  have hpre1 : (preFold o s).powerUps = (puAnimPhase (puTimerPhase o s)).powerUps := rfl
  have hpre2 : (preFold o s).powerUpSpawnTimer
      = (puTimerPhase o s).powerUpSpawnTimer := rfl
  obtain ⟨a1, a2⟩ := puAnimPhase_active (puTimerPhase o s)
  obtain ⟨f1, f2, f3⟩ := foldl_logic_powerUps o ((preFold o s).players.map Prod.fst)
    (preFold o s)
  obtain ⟨p1, p2⟩ := updateProjectiles_powerUps
    (((preFold o s).players.map Prod.fst).foldl (logicPlayer o) (preFold o s))
  have he1 : (updateGameLogic o s).powerUps =
      (((preFold o s).players.map Prod.fst).foldl (logicPlayer o) (preFold o s)).powerUps := by
    rw [hrepr]
    exact p1
  have he2 : (updateGameLogic o s).powerUpSpawnTimer =
      (((preFold o s).players.map Prod.fst).foldl (logicPlayer o)
        (preFold o s)).powerUpSpawnTimer := by
    rw [hrepr]
    exact p2
  refine ⟨?_, ?_, ?_⟩
  · rw [he1, f1, hpre1, a1]
  · calc activeCount (updateGameLogic o s).powerUps
        = activeCount (((preFold o s).players.map Prod.fst).foldl (logicPlayer o)
            (preFold o s)).powerUps := by rw [he1]
      _ ≤ activeCount (preFold o s).powerUps := f2
      _ = activeCount (puTimerPhase o s).powerUps := by rw [hpre1, a2]
  · rw [he2, f3, hpre2]

/-- C9 (amended): when the spawn timer crosses zero with fewer than 3 active
power-ups, the timer is reset to `POWERUP_SPAWN_INTERVAL` in every case, but a
new power-up (the oracle-drawn type at the oracle-drawn anchor, active) is
pushed only when no active power-up already lies within the 32-unit box of
the drawn anchor; if the anchor is occupied, nothing is spawned in that call.
The number of active power-ups never exceeds 3. -/
theorem powerUp_spawn_amended (o : Oracle) (s : GameState)
    (hcross : s.powerUpSpawnTimer - TICK ≤ 0)
    (hcount : activeCount s.powerUps < 3) :
    (updateGameLogic o s).powerUpSpawnTimer = POWERUP_SPAWN_INTERVAL ∧
    (puOccupied o s.powerUps = true →
      (puTimerPhase o s).powerUps = s.powerUps ∧
      (updateGameLogic o s).powerUps.length = s.powerUps.length) ∧
    (puOccupied o s.powerUps = false →
      (puTimerPhase o s).powerUps = s.powerUps ++ [newPU o] ∧
      (updateGameLogic o s).powerUps.length = s.powerUps.length + 1) ∧
    (∀ s' : GameState, activeCount s'.powerUps ≤ 3 →
      activeCount (updateGameLogic o s').powerUps ≤ 3) := by
  obtain ⟨ht, hu⟩ := puTimerPhase_fires o s hcross hcount
  obtain ⟨c1, c2, c3⟩ := updateGameLogic_powerUps_chain o s
  refine ⟨by rw [c3, ht], ?_, ?_, ?_⟩
  · intro hocc
    rw [hocc, if_pos rfl] at hu
    exact ⟨hu, by rw [c1, hu]⟩
  · intro hocc
    rw [hocc] at hu
    simp only [Bool.false_eq_true, if_false] at hu
    refine ⟨hu, ?_⟩
    rw [c1, hu, List.length_append, List.length_singleton]
  · intro s' h
    obtain ⟨d1, d2, d3⟩ := updateGameLogic_powerUps_chain o s'
    exact le_trans d2 (puTimerPhase_activeCount_le o s' h)

def cexPuState : GameState :=
  { players := [], blueFlag := mkFlag Team.blue 208 400 208 400
  , redFlag := mkFlag Team.red 1072 400 1072 400
  , score := ⟨0, 0⟩
  , powerUps := [{ id := "p0", type := PowerUpType.speed, x := 656, y := 176,
                   animTimer := 0, active := true }]
  , projectiles := [], events := [], gamePhase := Phase.playing, countdownTimer := 0
  , winner := none, tick := 0, powerUpSpawnTimer := 1/100 }

/-- C9 counterexample: the spawn timer crosses zero with a single active
power-up (fewer than 3), yet no new power-up is spawned in that call, because
the randomly drawn anchor is already occupied — the claim promises a spawn at
an unoccupied anchor, but the source draws one anchor and gives up if it is
taken.  The timer is still reset. -/
theorem spawn_occupied_counterexample :
    cexPuState.powerUpSpawnTimer - TICK ≤ 0 ∧
    activeCount cexPuState.powerUps < 3 ∧
    (updateGameLogic wOracle cexPuState).powerUps.length
      = cexPuState.powerUps.length ∧
    ((updateGameLogic wOracle cexPuState).powerUps.map (fun p => p.id)) = ["p0"] ∧
    wOracle.puId = "pu-w" ∧
    (updateGameLogic wOracle cexPuState).powerUpSpawnTimer = POWERUP_SPAWN_INTERVAL := by
  refine ⟨by with_unfolding_all decide, by with_unfolding_all decide,
    by with_unfolding_all rfl, by with_unfolding_all rfl, rfl,
    by with_unfolding_all rfl⟩

/-- Witness for the amended spawn behaviour at a concrete crossing state. -/
theorem powerUp_spawn_amended_witness :
    (cexPuState.powerUpSpawnTimer - TICK ≤ 0 ∧ activeCount cexPuState.powerUps < 3) ∧
    ((updateGameLogic wOracle cexPuState).powerUpSpawnTimer = POWERUP_SPAWN_INTERVAL ∧
     (puOccupied wOracle cexPuState.powerUps = true →
       (puTimerPhase wOracle cexPuState).powerUps = cexPuState.powerUps ∧
       (updateGameLogic wOracle cexPuState).powerUps.length
         = cexPuState.powerUps.length) ∧
     (puOccupied wOracle cexPuState.powerUps = false →
       (puTimerPhase wOracle cexPuState).powerUps = cexPuState.powerUps ++ [newPU wOracle] ∧
       (updateGameLogic wOracle cexPuState).powerUps.length
         = cexPuState.powerUps.length + 1) ∧
     (∀ s' : GameState, activeCount s'.powerUps ≤ 3 →
       activeCount (updateGameLogic wOracle s').powerUps ≤ 3)) :=
  ⟨⟨by with_unfolding_all decide, by with_unfolding_all decide⟩,
    powerUp_spawn_amended wOracle cexPuState (by with_unfolding_all decide)
      (by with_unfolding_all decide)⟩

/-! ## Flag/carrier bookkeeping lemmas -/

/-- The record keys and the `id` fields of the stored players agree (true of
every state the engine builds, since `addPlayer` stores `createPlayer(id,...)`
under `id`). -/
def IdCoherent (l : List (String × Player)) : Prop := ∀ kv ∈ l, kv.2.id = kv.1

theorem setFlag_flag_self (s : GameState) (t : Team) (f : Flag) :
    (s.setFlag t f).flag t = f := by
  cases t <;> rfl

theorem setFlag_flag_ne (s : GameState) (t t' : Team) (f : Flag) (h : t ≠ t') :
    (s.setFlag t' f).flag t = s.flag t := by
  cases t <;> cases t' <;> first | rfl | exact absurd rfl h

theorem addEvent_flag (s : GameState) (a b : String) (t : Team) :
    (addEvent s a b).flag t = s.flag t := by
  cases t <;> rfl

theorem players_flag_update (s : GameState) (l : List (String × Player)) (t : Team) :
    (({ s with players := l } : GameState).flag t) = s.flag t := by
  cases t <;> rfl

theorem touchReturnStep_players (u : GameState) (k : String) :
    (touchReturnStep u k).players = u.players := by
  unfold touchReturnStep
  cases lookupId k u.players with
  | none => rfl
  | some w =>
    simp only
    split
    · rw [addEvent_players, setFlag_players]
    · rfl

theorem touchReturnStep_flag (u : GameState) (k : String) (t : Team) :
    ((touchReturnStep u k).flag t).carrierId = (u.flag t).carrierId ∧
      ((u.flag t).carried = true → (touchReturnStep u k).flag t = u.flag t) := by
  unfold touchReturnStep
  cases hw : lookupId k u.players with
  | none => exact ⟨rfl, fun _ => rfl⟩
  | some w =>
    simp only
    split
    · rename_i hfire
      by_cases ht : t = w.team
      · subst ht
        rw [addEvent_flag, setFlag_flag_self]
        constructor
        · rfl
        · intro hcar
          simp only [Bool.and_eq_true, Bool.not_eq_true'] at hfire
          rw [hfire.1.1] at hcar
          cases hcar
      · rw [addEvent_flag, setFlag_flag_ne _ _ _ _ ht]
        exact ⟨rfl, fun _ => rfl⟩
    · exact ⟨rfl, fun _ => rfl⟩

theorem pickupStep_flag (u : GameState) (k : String) (t : Team) :
    (((pickupStep u k).flag t).x = (u.flag t).x ∧
      ((pickupStep u k).flag t).y = (u.flag t).y ∧
      ((pickupStep u k).flag t).dropTimer = (u.flag t).dropTimer) ∧
    (((pickupStep u k).flag t).carrierId = (u.flag t).carrierId ∨
      ((u.flag t).carried = false ∧
        ∃ w, lookupId k u.players = some w ∧
          ((pickupStep u k).flag t).carrierId = some w.id)) := by
  unfold pickupStep
  cases hw : lookupId k u.players with
  | none => exact ⟨⟨rfl, rfl, rfl⟩, Or.inl rfl⟩
  | some w =>
    simp only
    split
    · split
      · split
        · rename_i hguard _ _
          by_cases ht : t = w.team.other
          · subst ht
            rw [addEvent_flag, players_flag_update, setFlag_flag_self]
            refine ⟨⟨rfl, rfl, rfl⟩, Or.inr ⟨?_, w, rfl, rfl⟩⟩
            simp only [Bool.and_eq_true, Bool.not_eq_true'] at hguard
            exact hguard.1
          · rw [addEvent_flag, players_flag_update, setFlag_flag_ne _ _ _ _ ht]
            exact ⟨⟨rfl, rfl, rfl⟩, Or.inl rfl⟩
        · exact ⟨⟨rfl, rfl, rfl⟩, Or.inl rfl⟩
      · exact ⟨⟨rfl, rfl, rfl⟩, Or.inl rfl⟩
    · exact ⟨⟨rfl, rfl, rfl⟩, Or.inl rfl⟩

theorem pickupStep_lookup_ne (u : GameState) (k q : String) (hne : k ≠ q) :
    lookupId q (pickupStep u k).players = lookupId q u.players := by
  unfold pickupStep
  cases hw : lookupId k u.players with
  | none => rfl
  | some w =>
    simp only
    split
    · split
      · split
        · rw [addEvent_players]
          rw [show ∀ (v : GameState) (l : List (String × Player)),
              ({ v with players := l } : GameState).players = l from fun _ _ => rfl]
          rw [setFlag_players, lookupId_updateId_ne k q hne]
        · rfl
      · rfl
    · rfl

/-- A carrying player is never changed by its own pickup sub-step. -/
theorem pickupStep_carrying_self (u : GameState) (k : String) (w : Player)
    (hw : lookupId k u.players = some w) (hc : w.state = PState.carrying) :
    pickupStep u k = u := by
  unfold pickupStep
  rw [hw]
  simp only
  split
  · split
    · rename_i halive
      rw [hc] at halive
      simp at halive
    · rfl
  · rfl

/-- The fully-reset flag produced by a score: uncarried, at base, zero timer. -/
def resetFlag (f : Flag) : Flag :=
  { f with carrierId := none, x := f.baseX, y := f.baseY, dropTimer := 0 }

theorem Team.other_ne (t : Team) : t ≠ t.other := by
  cases t <;> simp [Team.other]

theorem scoreApply_fields (s : GameState) (k : String) (p : Player) :
    (scoreApply s k p).players
        = updateId k (fun v => { v with state := PState.alive }) s.players ∧
      (scoreApply s k p).flag p.team.other = resetFlag (s.flag p.team.other) ∧
      (scoreApply s k p).flag p.team = s.flag p.team := by
  unfold scoreApply
  simp only [addEvent]
  refine ⟨?_, ?_, ?_⟩
  · split <;> simp [setFlag_players]
  · split <;>
    · show (GameState.setFlag _ p.team.other _).flag p.team.other = _
      rw [setFlag_flag_self]
      rfl
  · split <;>
    · show (GameState.setFlag _ p.team.other _).flag p.team = _
      rw [setFlag_flag_ne _ _ _ _ (Team.other_ne p.team)]
      cases p.team <;> rfl

theorem scoreStep_cases (u : GameState) (k : String) :
    scoreStep u k = u ∨
      ∃ w, lookupId k u.players = some w ∧ w.state = PState.carrying ∧
        (u.flag w.team).carried = false ∧
        (scoreStep u k).players
          = updateId k (fun v => { v with state := PState.alive }) u.players ∧
        (scoreStep u k).flag w.team.other = resetFlag (u.flag w.team.other) ∧
        (scoreStep u k).flag w.team = u.flag w.team := by
  unfold scoreStep
  cases hw : lookupId k u.players with
  | none => exact Or.inl rfl
  | some w =>
    simp only
    by_cases hc : (w.state == PState.carrying) = true
    · rw [if_pos hc]
      by_cases hg : scoreFire u w = true
      · rw [if_pos hg]
        right
        obtain ⟨h1, h2, h3⟩ := scoreApply_fields u k w
        refine ⟨w, rfl, by simpa using hc, ?_, h1, h2, h3⟩
        unfold scoreFire at hg
        simp only [Bool.and_eq_true, Bool.not_eq_true'] at hg
        exact hg.1.1.1
      · rw [if_neg hg]
        exact Or.inl rfl
    · rw [if_neg hc]
      exact Or.inl rfl

theorem collectFold_player (pus : List PowerUp) :
    ∀ (acc : List PowerUp × Player × List EventMessage),
      ((pus.foldl collectPU acc).2.1).x = acc.2.1.x ∧
        ((pus.foldl collectPU acc).2.1).y = acc.2.1.y ∧
        ((pus.foldl collectPU acc).2.1).state = acc.2.1.state ∧
        ((pus.foldl collectPU acc).2.1).id = acc.2.1.id := by
  induction pus with
  | nil => intro acc; exact ⟨rfl, rfl, rfl, rfl⟩
  | cons pu rest ih =>
    intro acc
    simp only [List.foldl]
    obtain ⟨i1, i2, i3, i4⟩ := ih (collectPU acc pu)
    have hstep : (collectPU acc pu).2.1.x = acc.2.1.x ∧
        (collectPU acc pu).2.1.y = acc.2.1.y ∧
        (collectPU acc pu).2.1.state = acc.2.1.state ∧
        (collectPU acc pu).2.1.id = acc.2.1.id := by
      unfold collectPU
      simp only
      split
      · split <;> exact ⟨rfl, rfl, rfl, rfl⟩
      · exact ⟨rfl, rfl, rfl, rfl⟩
    exact ⟨i1.trans hstep.1, i2.trans hstep.2.1, i3.trans hstep.2.2.1,
      i4.trans hstep.2.2.2⟩

theorem powerupCollectStep_flag (u : GameState) (k : String) (t : Team) :
    (powerupCollectStep u k).flag t = u.flag t := by
  unfold powerupCollectStep
  cases lookupId k u.players with
  | none => rfl
  | some p0 => cases t <;> rfl

theorem powerupCollectStep_lookup_ne (u : GameState) (k q : String) (hne : k ≠ q) :
    lookupId q (powerupCollectStep u k).players = lookupId q u.players := by
  unfold powerupCollectStep
  cases lookupId k u.players with
  | none => rfl
  | some p0 =>
    simp only
    exact lookupId_updateId_ne k q hne _ _

theorem powerupCollectStep_lookup_self (u : GameState) (k : String) (w : Player)
    (hw : lookupId k u.players = some w) :
    ∃ w', lookupId k (powerupCollectStep u k).players = some w' ∧
      w'.x = w.x ∧ w'.y = w.y ∧ w'.state = w.state ∧ w'.id = w.id := by
  unfold powerupCollectStep
  rw [hw]
  simp only
  rw [show ∀ (v : GameState) (l : List (String × Player)) (pw : List PowerUp)
      (e : List EventMessage),
      ({ v with powerUps := pw, players := l, events := e } : GameState).players = l from
      fun _ _ _ _ => rfl]
  rw [lookupId_updateId_self, hw]
  simp only [Option.map]
  obtain ⟨h1, h2, h3, h4⟩ := collectFold_player u.powerUps ([], w, u.events)
  exact ⟨_, rfl, h1, h2, h3, h4⟩

theorem idc_updateId (l : List (String × Player)) (h : IdCoherent l) (k : String)
    (f : Player → Player) (hf : ∀ v : Player, v.id = k → (f v).id = k) :
    IdCoherent (updateId k f l) := by
  induction l with
  | nil => intro kv hkv; cases hkv
  | cons hd tl ih =>
    obtain ⟨k0, v⟩ := hd
    have hv : v.id = k0 := h (k0, v) (List.mem_cons_self _ _)
    have htl : IdCoherent tl := fun kv hkv => h kv (List.mem_cons_of_mem _ hkv)
    intro kv hkv
    unfold updateId at hkv
    by_cases hk : k0 = k
    · subst hk
      rw [if_pos rfl, List.mem_cons] at hkv
      rcases hkv with rfl | hkv
      · exact hf v hv
      · exact htl kv hkv
    · rw [if_neg hk, List.mem_cons] at hkv
      rcases hkv with rfl | hkv
      · exact hv
      · exact ih htl kv hkv

/-- In a coherent record, the looked-up player's `id` field is the key. -/
theorem idc_lookup (k : String) (w : Player) :
    ∀ l : List (String × Player), IdCoherent l → lookupId k l = some w → w.id = k := by
  intro l
  induction l with
  | nil => intro _ hw; cases hw
  | cons hd tl ih =>
    obtain ⟨k0, v⟩ := hd
    intro h hw
    rw [lookupId] at hw
    by_cases hk : k0 = k
    · rw [if_pos hk, Option.some.injEq] at hw
      subst hw
      exact (h (k0, v) (List.mem_cons_self _ _)).trans hk
    · rw [if_neg hk] at hw
      exact ih (fun kv hkv => h kv (List.mem_cons_of_mem _ hkv)) hw

/-- A flag whose `carrierId` is a nonempty id is carried (JS truthiness). -/
theorem carried_of_some (f : Flag) (c : String) (hc : c ≠ "") (h : f.carrierId = some c) :
    f.carried = true := by
  unfold Flag.carried
  rw [h]
  simp [hc]

theorem Team.eq_other_of_ne (t t' : Team) (h : t ≠ t') : t = t'.other := by
  cases t <;> cases t' <;> first | rfl | exact absurd rfl h

theorem puTimerPhase_players (o : Oracle) (s : GameState) :
    (puTimerPhase o s).players = s.players := by
  simp only [puTimerPhase, spawnPowerUp]
  split
  · split <;> rfl
  · rfl

theorem puTimerPhase_flag (o : Oracle) (s : GameState) (t : Team) :
    (puTimerPhase o s).flag t = s.flag t := by
  simp only [puTimerPhase, spawnPowerUp]
  split
  · split <;> cases t <;> rfl
  · cases t <;> rfl

theorem puAnimPhase_players (s : GameState) : (puAnimPhase s).players = s.players := rfl

theorem puAnimPhase_flag (s : GameState) (t : Team) : (puAnimPhase s).flag t = s.flag t := by
  cases t <;> rfl

theorem flagAnimPhase_players (s : GameState) : (flagAnimPhase s).players = s.players := rfl

theorem flagAnimPhase_flag (s : GameState) (t : Team) :
    (flagAnimPhase s).flag t = flagAnim (s.flag t) := by
  cases t <;> rfl

/-- The tick animation of a flag moves neither its position nor its carrier. -/
theorem flagAnim_fields (f : Flag) :
    (flagAnim f).x = f.x ∧ (flagAnim f).y = f.y ∧ (flagAnim f).carrierId = f.carrierId := by
  unfold flagAnim
  simp only
  split <;> exact ⟨rfl, rfl, rfl⟩

theorem flagPhase_players (s : GameState) : (flagPhase s).players = s.players := rfl

theorem flagPhase_flag (s : GameState) (t : Team) :
    (flagPhase s).flag t = flagCarryDrop s.players (s.flag t) := by
  cases t <;> rfl

/-- `flagCarryDrop` snaps a carried flag exactly onto its (present) carrier. -/
theorem flagCarryDrop_snap (players : List (String × Player)) (f : Flag) (c : String)
    (hc : c ≠ "") (hcar : f.carrierId = some c) (p : Player)
    (hp : lookupId c players = some p) :
    (flagCarryDrop players f).carrierId = some c ∧
      (flagCarryDrop players f).x = p.x ∧ (flagCarryDrop players f).y = p.y := by
  unfold flagCarryDrop
  rw [carried_of_some f c hc hcar]
  simp only [hcar, Option.getD, if_true, hp]
  have h2 : ({ f with x := p.x, y := p.y, carrierId := some c } : Flag).carried = true := by
    unfold Flag.carried
    simp [hc]
  rw [h2]
  simp only [Bool.not_true, Bool.false_and]
  rw [if_neg (by simp)]
  exact ⟨rfl, rfl, rfl⟩

theorem preFold_players (o : Oracle) (s : GameState) : (preFold o s).players = s.players := by
  unfold preFold
  rw [flagPhase_players, flagAnimPhase_players, puAnimPhase_players, puTimerPhase_players]

/-- Through the pre-loop phases a carried flag with a present carrier ends up
snapped onto the carrier, still carried by it. -/
theorem preFold_flag_snap (o : Oracle) (s : GameState) (t : Team) (c : String)
    (hc : c ≠ "") (hcar : (s.flag t).carrierId = some c) (p : Player)
    (hp : lookupId c s.players = some p) :
    ((preFold o s).flag t).carrierId = some c ∧
      ((preFold o s).flag t).x = p.x ∧ ((preFold o s).flag t).y = p.y := by
  unfold preFold
  rw [flagPhase_flag, flagAnimPhase_players, puAnimPhase_players, puTimerPhase_players,
    flagAnimPhase_flag, puAnimPhase_flag, puTimerPhase_flag]
  obtain ⟨_, _, h3⟩ := flagAnim_fields (s.flag t)
  exact flagCarryDrop_snap s.players (flagAnim (s.flag t)) c hc (h3.trans hcar) p hp

theorem eventsPhase_players (s : GameState) : (eventsPhase s).players = s.players := rfl

theorem eventsPhase_flag (s : GameState) (t : Team) : (eventsPhase s).flag t = s.flag t := by
  cases t <;> rfl

theorem pickupStep_players_cases (u : GameState) (k : String) :
    (pickupStep u k).players = u.players ∨
      (pickupStep u k).players
        = updateId k (fun v => { v with state := PState.carrying }) u.players := by
  unfold pickupStep
  cases hw : lookupId k u.players with
  | none => exact Or.inl rfl
  | some w =>
    simp only
    split
    · split
      · split
        · right
          rw [addEvent_players]
          show (updateId k _ (GameState.setFlag _ _ _).players) = _
          rw [setFlag_players]
        · exact Or.inl rfl
      · exact Or.inl rfl
    · exact Or.inl rfl

/-- Power-up collection leaves the player record coherent: the replacement
player keeps the id of the entry it overwrites. -/
theorem powerupCollectStep_idc (u : GameState) (k : String)
    (hid : IdCoherent u.players) : IdCoherent (powerupCollectStep u k).players := by
  unfold powerupCollectStep
  cases hw : lookupId k u.players with
  | none => exact hid
  | some p0 =>
    simp only
    apply idc_updateId _ hid
    intro v _
    obtain ⟨_, _, _, h4⟩ := collectFold_player u.powerUps ([], p0, u.events)
    exact h4.trans (idc_lookup k p0 u.players hid hw)

/-- The carrier invariant threaded through the per-player loop: the flag of
team `t` is either still exactly on its carrier `c` (who stays in `carrying`
state until its own iteration has run), or no longer carried by `c` at all —
and in the latter case `c` is still in `carrying` state while its iteration
is pending, so it cannot re-grab the flag without a snap. -/
def CarrierInv (t : Team) (c : String) (ks : List String) (u : GameState) : Prop :=
  ((u.flag t).carrierId = some c ∧
      ∃ p', lookupId c u.players = some p' ∧ (u.flag t).x = p'.x ∧ (u.flag t).y = p'.y ∧
        (c ∈ ks → p'.state = PState.carrying))
    ∨ ((u.flag t).carrierId ≠ some c ∧
        (c ∈ ks → ∀ p', lookupId c u.players = some p' → p'.state = PState.carrying))

theorem carrierInv_tail (t : Team) (c : String) (k : String) (ks : List String)
    (u : GameState) (h : CarrierInv t c (k :: ks) u) : CarrierInv t c ks u := by
  rcases h with ⟨h1, p', hp', hx, hy, hst⟩ | ⟨h1, hst⟩
  · exact Or.inl ⟨h1, p', hp', hx, hy, fun hm => hst (List.mem_cons_of_mem _ hm)⟩
  · exact Or.inr ⟨h1, fun hm => hst (List.mem_cons_of_mem _ hm)⟩

theorem carrierInv_setPlayers (t : Team) (c : String) (ks : List String) (u : GameState)
    (l : List (String × Player)) (hlc : lookupId c l = lookupId c u.players)
    (hinv : CarrierInv t c ks u) :
    CarrierInv t c ks ({ u with players := l }) := by
  rcases hinv with ⟨h1, p', hp', hxx, hyy, hst⟩ | ⟨h1, hst⟩
  · left
    rw [players_flag_update]
    refine ⟨h1, p', ?_, hxx, hyy, hst⟩
    show lookupId c l = some p'
    rw [hlc]
    exact hp'
  · right
    rw [players_flag_update]
    refine ⟨h1, fun hm p' hp' => hst hm p' ?_⟩
    rw [← hlc]
    exact hp'

theorem touchReturn_carrier (u : GameState) (k : String) (t : Team) (c : String)
    (hc : c ≠ "") (ks : List String) (hid : IdCoherent u.players)
    (hinv : CarrierInv t c ks u) :
    IdCoherent (touchReturnStep u k).players ∧ CarrierInv t c ks (touchReturnStep u k) := by
  refine ⟨by rw [touchReturnStep_players]; exact hid, ?_⟩
  obtain ⟨hcid, hcimp⟩ := touchReturnStep_flag u k t
  rcases hinv with ⟨h1, p', hp', hxx, hyy, hst⟩ | ⟨h1, hst⟩
  · left
    rw [touchReturnStep_players, hcimp (carried_of_some _ c hc h1)]
    exact ⟨h1, p', hp', hxx, hyy, hst⟩
  · right
    rw [touchReturnStep_players, hcid]
    exact ⟨h1, hst⟩

theorem pickup_carrier (u : GameState) (k : String) (t : Team) (c : String) (hc : c ≠ "")
    (ks : List String) (hid : IdCoherent u.players)
    (hkc : k = c → ∀ w, lookupId k u.players = some w → w.state = PState.carrying)
    (hinv : CarrierInv t c ks u) :
    IdCoherent (pickupStep u k).players ∧ CarrierInv t c ks (pickupStep u k) := by
  have hidp : IdCoherent (pickupStep u k).players := by
    rcases pickupStep_players_cases u k with hp | hp
    · rw [hp]; exact hid
    · rw [hp]; exact idc_updateId _ hid k _ (fun v hv => hv)
  refine ⟨hidp, ?_⟩
  by_cases hkceq : k = c
  · cases hw : lookupId k u.players with
    | none =>
      have hnone : pickupStep u k = u := by unfold pickupStep; rw [hw]
      rw [hnone]
      exact hinv
    | some w =>
      rw [pickupStep_carrying_self u k w hw (hkc hkceq w hw)]
      exact hinv
  · obtain ⟨⟨hx, hy, _⟩, hcid⟩ := pickupStep_flag u k t
    have hlc : lookupId c (pickupStep u k).players = lookupId c u.players :=
      pickupStep_lookup_ne u k c hkceq
    rcases hinv with ⟨h1, p', hp', hxx, hyy, hst⟩ | ⟨h1, hst⟩
    · rcases hcid with hcid | ⟨hunc, _⟩
      · left
        refine ⟨hcid.trans h1, p', by rw [hlc]; exact hp', hx.trans hxx, hy.trans hyy, hst⟩
      · rw [carried_of_some _ c hc h1] at hunc
        cases hunc
    · rcases hcid with hcid | ⟨hunc, w, hw, hnew⟩
      · right
        refine ⟨by rw [hcid]; exact h1, ?_⟩
        intro hm p' hp'
        rw [hlc] at hp'
        exact hst hm p' hp'
      · right
        have hwid : w.id = k := idc_lookup k w u.players hid hw
        refine ⟨by rw [hnew, hwid]; simp [hkceq], ?_⟩
        intro hm p' hp'
        rw [hlc] at hp'
        exact hst hm p' hp'

theorem score_carrier (u : GameState) (k : String) (t : Team) (c : String) (hc : c ≠ "")
    (ks' : List String) (hid : IdCoherent u.players)
    (hknd : k = c → c ∉ ks')
    (hinv : CarrierInv t c (k :: ks') u) :
    IdCoherent (scoreStep u k).players ∧ CarrierInv t c ks' (scoreStep u k) := by
  rcases scoreStep_cases u k with heq | ⟨w, hw, hcarr, hunc, hpl, hreset, hkeep⟩
  · rw [heq]
    exact ⟨hid, carrierInv_tail t c k ks' u hinv⟩
  · have hid3 : IdCoherent (scoreStep u k).players := by
      rw [hpl]
      exact idc_updateId _ hid k _ (fun v hv => hv)
    refine ⟨hid3, ?_⟩
    by_cases hkc : k = c
    · have hcnot := hknd hkc
      by_cases ht : t = w.team
      · subst ht
        rcases hinv with ⟨h1, p', hp', hxx, hyy, hst⟩ | ⟨h1, hst⟩
        · rw [carried_of_some _ c hc h1] at hunc
          cases hunc
        · right
          rw [hkeep]
          exact ⟨h1, fun hm => absurd hm hcnot⟩
      · have ht2 : t = w.team.other := Team.eq_other_of_ne t w.team ht
        subst ht2
        right
        rw [hreset]
        exact ⟨by simp [resetFlag], fun hm => absurd hm hcnot⟩
    · have hlc : lookupId c (scoreStep u k).players = lookupId c u.players := by
        rw [hpl, lookupId_updateId_ne k c hkc]
      by_cases ht : t = w.team
      · subst ht
        rcases hinv with ⟨h1, p', hp', hxx, hyy, hst⟩ | ⟨h1, hst⟩
        · rw [carried_of_some _ c hc h1] at hunc
          cases hunc
        · right
          rw [hkeep, hlc]
          exact ⟨h1, fun hm p' hp' => hst (List.mem_cons_of_mem _ hm) p' hp'⟩
      · have ht2 : t = w.team.other := Team.eq_other_of_ne t w.team ht
        subst ht2
        right
        rw [hreset, hlc]
        refine ⟨by simp [resetFlag], ?_⟩
        intro hm p' hp'
        rcases hinv with ⟨h1, p'', hp'', hxx, hyy, hst⟩ | ⟨h1, hst⟩
        · rw [hp''] at hp'
          cases hp'
          exact hst (List.mem_cons_of_mem _ hm)
        · exact hst (List.mem_cons_of_mem _ hm) p' hp'

theorem collect_carrier (u : GameState) (k : String) (t : Team) (c : String) (hc : c ≠ "")
    (ks : List String) (hid : IdCoherent u.players)
    (hinv : CarrierInv t c ks u) :
    IdCoherent (powerupCollectStep u k).players ∧
      CarrierInv t c ks (powerupCollectStep u k) := by
  refine ⟨powerupCollectStep_idc u k hid, ?_⟩
  have hflag := powerupCollectStep_flag u k t
  by_cases hkc : k = c
  · subst hkc
    rcases hinv with ⟨h1, p', hp', hxx, hyy, hst⟩ | ⟨h1, hst⟩
    · obtain ⟨w', hw', hwx, hwy, hwst, _⟩ := powerupCollectStep_lookup_self u k p' hp'
      left
      rw [hflag]
      exact ⟨h1, w', hw', hxx.trans hwx.symm, hyy.trans hwy.symm,
        fun hm => hwst.trans (hst hm)⟩
    · right
      rw [hflag]
      refine ⟨h1, ?_⟩
      intro hm p' hp'
      cases hp0 : lookupId k u.players with
      | none =>
        have hcoll : powerupCollectStep u k = u := by unfold powerupCollectStep; rw [hp0]
        rw [hcoll] at hp'
        exact hst hm p' hp'
      | some p0 =>
        obtain ⟨w', hw', _, _, hwst, _⟩ := powerupCollectStep_lookup_self u k p0 hp0
        rw [hw'] at hp'
        cases hp'
        exact hwst.trans (hst hm p0 hp0)
  · have hlc := powerupCollectStep_lookup_ne u k c hkc
    rcases hinv with ⟨h1, p', hp', hxx, hyy, hst⟩ | ⟨h1, hst⟩
    · left
      rw [hflag, hlc]
      exact ⟨h1, p', hp', hxx, hyy, hst⟩
    · right
      rw [hflag, hlc]
      exact ⟨h1, hst⟩

/-- One per-player iteration of the loop preserves coherence and the carrier
invariant, discharging the head key. -/
theorem logicPlayer_carrier (o : Oracle) (t : Team) (c : String) (hc : c ≠ "")
    (k : String) (ks' : List String) (u : GameState)
    (hid : IdCoherent u.players) (hknd : k = c → c ∉ ks')
    (hinv : CarrierInv t c (k :: ks') u) :
    IdCoherent (logicPlayer o u k).players ∧ CarrierInv t c ks' (logicPlayer o u k) := by
  unfold logicPlayer
  cases hw : lookupId k u.players with
  | none => exact ⟨hid, carrierInv_tail t c k ks' u hinv⟩
  | some w =>
    simp only
    by_cases hdead : w.state = PState.dead
    · rw [if_pos hdead]
      have hkc : k ≠ c := by
        intro he
        subst he
        rcases hinv with ⟨_, p', hp', _, _, hst⟩ | ⟨_, hst⟩
        · rw [hw] at hp'
          cases hp'
          rw [hst (List.mem_cons_self _ _)] at hdead
          exact absurd hdead (by decide)
        · rw [hst (List.mem_cons_self _ _) w hw] at hdead
          exact absurd hdead (by decide)
      split
      · refine ⟨idc_updateId _ hid k _ (fun v hv => hv), ?_⟩
        exact carrierInv_setPlayers t c ks' u _ (lookupId_updateId_ne k c hkc _ _)
          (carrierInv_tail t c k ks' u hinv)
      · exact ⟨hid, carrierInv_tail t c k ks' u hinv⟩
    · rw [if_neg hdead]
      have hkcond : k = c →
          ∀ w', lookupId k (touchReturnStep u k).players = some w' →
            w'.state = PState.carrying := by
        intro he w' hw'
        rw [touchReturnStep_players] at hw'
        subst he
        rcases hinv with ⟨_, p', hp', _, _, hst⟩ | ⟨_, hst⟩
        · rw [hp'] at hw'
          cases hw'
          exact hst (List.mem_cons_self _ _)
        · exact hst (List.mem_cons_self _ _) w' hw'
      obtain ⟨hidA, hinvA⟩ := touchReturn_carrier u k t c hc (k :: ks') hid hinv
      obtain ⟨hidB, hinvB⟩ :=
        pickup_carrier (touchReturnStep u k) k t c hc (k :: ks') hidA hkcond hinvA
      obtain ⟨hidC, hinvC⟩ :=
        score_carrier (pickupStep (touchReturnStep u k) k) k t c hc ks' hidB hknd hinvB
      exact collect_carrier (scoreStep (pickupStep (touchReturnStep u k) k) k) k t c hc ks'
        hidC hinvC

/-- The whole per-player loop preserves coherence and the carrier invariant. -/
theorem fold_carrier (o : Oracle) (t : Team) (c : String) (hc : c ≠ "") :
    ∀ (ks : List String) (u : GameState), ks.Nodup → IdCoherent u.players →
      CarrierInv t c ks u →
      IdCoherent (ks.foldl (logicPlayer o) u).players ∧
        CarrierInv t c [] (ks.foldl (logicPlayer o) u) := by
  intro ks
  induction ks with
  | nil => intro u _ hid hinv; exact ⟨hid, hinv⟩
  | cons k ks' ih =>
    intro u hnd hid hinv
    rw [List.foldl_cons]
    have hknd : k = c → c ∉ ks' := fun he => he ▸ (List.nodup_cons.mp hnd).1
    obtain ⟨hid1, hinv1⟩ := logicPlayer_carrier o t c hc k ks' u hid hknd hinv
    exact ih _ (List.nodup_cons.mp hnd).2 hid1 hinv1

theorem carrierInv_addEvent (t : Team) (c : String) (ks : List String) (s : GameState)
    (a b : String) (h : CarrierInv t c ks s) : CarrierInv t c ks (addEvent s a b) := by
  rcases h with ⟨h1, p', hp', hx, hy, hst⟩ | ⟨h1, hst⟩
  · left
    rw [addEvent_flag, addEvent_players]
    exact ⟨h1, p', hp', hx, hy, hst⟩
  · right
    rw [addEvent_flag, addEvent_players]
    exact ⟨h1, hst⟩

/-- A point update that moves no player preserves the snapped-carrier
invariant (with no pending iterations). -/
theorem carrierInv_update_xy (t : Team) (c : String) (u : GameState) (q : String)
    (f : Player → Player) (hf : ∀ v, (f v).x = v.x ∧ (f v).y = v.y)
    (hinv : CarrierInv t c [] u) :
    CarrierInv t c [] ({ u with players := updateId q f u.players }) := by
  rcases hinv with ⟨h1, p', hp', hx, hy, _⟩ | ⟨h1, _⟩
  · left
    rw [players_flag_update]
    by_cases hqc : q = c
    · subst hqc
      refine ⟨h1, f p', ?_, hx.trans (hf p').1.symm, hy.trans (hf p').2.symm,
        fun hm => nomatch hm⟩
      show lookupId q (updateId q f u.players) = some (f p')
      rw [lookupId_updateId_self, hp']
      rfl
    · refine ⟨h1, p', ?_, hx, hy, fun hm => nomatch hm⟩
      show lookupId c (updateId q f u.players) = some p'
      rw [lookupId_updateId_ne q c hqc]
      exact hp'
  · right
    rw [players_flag_update]
    exact ⟨h1, fun hm => nomatch hm⟩

/-- The tail of `killPlayer`: mark the victim dead and emit the event. -/
def killFn : Player → Player :=
  fun v => { v with state := PState.dead, respawnTimer := RESPAWN_TIME, flashTimer := 3/10 }

def killWrap (victimId kn vname : String) (u : GameState) : GameState :=
  addEvent { u with players := updateId victimId killFn u.players }
    (kn ++ " eliminated " ++ vname ++ "!") "#ffffff"

/-- The flag as dropped at the victim's position by `killPlayer`. -/
def droppedAt (f : Flag) (x y : ℚ) : Flag :=
  { f with x := x, y := y, carrierId := none, dropTimer := FLAG_RETURN_TIME }

theorem killPlayer_eq_carrying (victimId : String) (victim : Player) (kn : String)
    (s : GameState) (h : victim.state = PState.carrying) :
    killPlayer victimId victim kn s =
      killWrap victimId kn victim.name
        (s.setFlag victim.team.other
          (droppedAt (s.flag victim.team.other) victim.x victim.y)) := by
  unfold killPlayer killWrap killFn droppedAt
  rw [if_pos h]

theorem killPlayer_eq_not (victimId : String) (victim : Player) (kn : String)
    (s : GameState) (h : ¬victim.state = PState.carrying) :
    killPlayer victimId victim kn s = killWrap victimId kn victim.name s := by
  unfold killPlayer killWrap killFn
  rw [if_neg h]

theorem killWrap_carrier (t : Team) (c : String) (victimId kn vn : String) (u : GameState)
    (hid : IdCoherent u.players) (hinv : CarrierInv t c [] u) :
    IdCoherent (killWrap victimId kn vn u).players ∧
      CarrierInv t c [] (killWrap victimId kn vn u) := by
  constructor
  · unfold killWrap
    rw [addEvent_players]
    show IdCoherent (updateId victimId killFn u.players)
    exact idc_updateId _ hid victimId _ (fun v hv => hv)
  · unfold killWrap
    exact carrierInv_addEvent t c [] _ _ _
      (carrierInv_update_xy t c u victimId killFn (fun v => ⟨rfl, rfl⟩) hinv)

/-- A kill preserves coherence, and either releases the flag (the victim was
carrying) or leaves the snapped carrier untouched. -/
theorem killPlayer_carrier (victimId : String) (victim : Player) (kn : String)
    (s : GameState) (t : Team) (c : String)
    (hid : IdCoherent s.players) (hinv : CarrierInv t c [] s) :
    IdCoherent (killPlayer victimId victim kn s).players ∧
      CarrierInv t c [] (killPlayer victimId victim kn s) := by
  by_cases hcar : victim.state = PState.carrying
  · rw [killPlayer_eq_carrying victimId victim kn s hcar]
    apply killWrap_carrier
    · rw [setFlag_players]
      exact hid
    · by_cases ht : t = victim.team.other
      · subst ht
        right
        rw [setFlag_flag_self]
        exact ⟨by simp [droppedAt], fun hm => nomatch hm⟩
      · rcases hinv with ⟨h1, p', hp', hx, hy, _⟩ | ⟨h1, _⟩
        · left
          rw [setFlag_flag_ne _ _ _ _ ht, setFlag_players]
          exact ⟨h1, p', hp', hx, hy, fun hm => nomatch hm⟩
        · right
          rw [setFlag_flag_ne _ _ _ _ ht]
          exact ⟨h1, fun hm => nomatch hm⟩
  · rw [killPlayer_eq_not victimId victim kn s hcar]
    exact killWrap_carrier t c victimId kn victim.name s hid hinv

theorem processBullet_carrier (s : GameState) (b : Projectile) (t : Team) (c : String)
    (hid : IdCoherent s.players) (hinv : CarrierInv t c [] s) :
    IdCoherent (processBullet s b).1.players ∧ CarrierInv t c [] (processBullet s b).1 := by
  unfold processBullet
  simp only
  split
  · exact ⟨hid, hinv⟩
  · split
    · exact ⟨hid, hinv⟩
    · split
      · exact ⟨hid, hinv⟩
      · split
        · constructor
          · show IdCoherent (updateId _ _ s.players)
            exact idc_updateId _ hid _ _ (fun v hv => hv)
          · exact carrierInv_update_xy t c s _ _ (fun v => ⟨rfl, rfl⟩) hinv
        · exact killPlayer_carrier _ _ _ s t c hid hinv

theorem projFold_carrier (t : Team) (c : String) (l : List Projectile) (u : GameState)
    (hid : IdCoherent u.players) (hinv : CarrierInv t c [] u) :
    IdCoherent (projFold l u).1.players ∧ CarrierInv t c [] (projFold l u).1 := by
  induction l with
  | nil => exact ⟨hid, hinv⟩
  | cons b rest ih =>
    rw [projFold_cons]
    obtain ⟨ih1, ih2⟩ := ih
    have hb := processBullet_carrier (projFold rest u).1 b t c ih1 ih2
    cases hpr : processBullet (projFold rest u).1 b with
    | mk st r =>
      rw [hpr] at hb
      cases r <;> exact hb

theorem projectiles_flag_update (s : GameState) (l : List Projectile) (t : Team) :
    (({ s with projectiles := l } : GameState).flag t) = s.flag t := by
  cases t <;> rfl

theorem updateProjectiles_carrier (s : GameState) (t : Team) (c : String)
    (hid : IdCoherent s.players) (hinv : CarrierInv t c [] s) :
    IdCoherent (updateProjectiles s).players ∧ CarrierInv t c [] (updateProjectiles s) := by
  unfold updateProjectiles
  simp only
  have h0 : CarrierInv t c [] ({ s with projectiles := ([] : List Projectile) }) := by
    rcases hinv with ⟨h1, p', hp', hx, hy, _⟩ | ⟨h1, _⟩
    · left
      rw [projectiles_flag_update]
      exact ⟨h1, p', hp', hx, hy, fun hm => nomatch hm⟩
    · right
      rw [projectiles_flag_update]
      exact ⟨h1, fun hm => nomatch hm⟩
  have h1 := projFold_carrier t c s.projectiles ({ s with projectiles := [] }) hid h0
  refine ⟨h1.1, ?_⟩
  rcases h1.2 with ⟨a1, p', hp', hx, hy, _⟩ | ⟨a1, _⟩
  · left
    rw [projectiles_flag_update]
    exact ⟨a1, p', hp', hx, hy, fun hm => nomatch hm⟩
  · right
    rw [projectiles_flag_update]
    exact ⟨a1, fun hm => nomatch hm⟩

theorem eventsPhase_carrier (s : GameState) (t : Team) (c : String)
    (hinv : CarrierInv t c [] s) : CarrierInv t c [] (eventsPhase s) := by
  rcases hinv with ⟨h1, p', hp', hx, hy, _⟩ | ⟨h1, _⟩
  · left
    rw [eventsPhase_flag]
    exact ⟨h1, p', hp', hx, hy, fun hm => nomatch hm⟩
  · right
    rw [eventsPhase_flag]
    exact ⟨h1, fun hm => nomatch hm⟩

/-- C3 (amended): a flag already carried at the start of an `updateGameLogic`
call — by a nonempty id `c` referring to a present player in `carrying` state,
in a state with coherent ids and duplicate-free keys — ends the call either
still carried by `c` with its position exactly equal to that carrier's
position, or released from `c` (by a score or a kill during the call).  The
original claim's "including on the very tick of the pickup" is refuted
separately: the pickup assigns `carrierId` without moving the flag. -/
theorem flag_follows_carrier_amended (o : Oracle) (s : GameState) (t : Team) (c : String)
    (hc : c ≠ "")
    (hid : IdCoherent s.players)
    (hnd : (s.players.map Prod.fst).Nodup)
    (hcar : (s.flag t).carrierId = some c)
    (p : Player) (hp : lookupId c s.players = some p)
    (hst : p.state = PState.carrying) :
    (((updateGameLogic o s).flag t).carrierId = some c ∧
        ∃ p', lookupId c (updateGameLogic o s).players = some p' ∧
          ((updateGameLogic o s).flag t).x = p'.x ∧
          ((updateGameLogic o s).flag t).y = p'.y) ∨
      ((updateGameLogic o s).flag t).carrierId ≠ some c := by
  have hpre := preFold_flag_snap o s t c hc hcar p hp
  have hplayers := preFold_players o s
  have hinv0 : CarrierInv t c (s.players.map Prod.fst) (preFold o s) := by
    left
    refine ⟨hpre.1, p, ?_, hpre.2.1, hpre.2.2, fun _ => hst⟩
    rw [hplayers]
    exact hp
  have hid0 : IdCoherent (preFold o s).players := by
    rw [hplayers]
    exact hid
  have hkeys : ((preFold o s).players.map Prod.fst) = s.players.map Prod.fst := by
    rw [hplayers]
  have hfold := fold_carrier o t c hc (s.players.map Prod.fst) (preFold o s) hnd hid0 hinv0
  have hrepr : updateGameLogic o s =
      eventsPhase (updateProjectiles
        (((preFold o s).players.map Prod.fst).foldl (logicPlayer o) (preFold o s))) := rfl
  rw [hrepr, hkeys]
  obtain ⟨hid1, hinv1⟩ := hfold
  have hproj := updateProjectiles_carrier _ t c hid1 hinv1
  have hev := eventsPhase_carrier _ t c hproj.2
  rcases hev with ⟨h1, p', hp', hx, hy, _⟩ | ⟨h1, _⟩
  · exact Or.inl ⟨h1, p', hp', hx, hy⟩
  · exact Or.inr h1

/-- A red attacker standing 10 units from the uncarried blue flag: this call
picks the flag up. -/
def cexPickupState : GameState :=
  { players := [("a", mkPlayer "a" "Ann" Team.red 300 400 PState.alive)]
  , blueFlag := mkFlag Team.blue 290 400 208 400
  , redFlag := mkFlag Team.red 1072 400 1072 400
  , score := ⟨0, 0⟩, powerUps := [], projectiles := [], events := []
  , gamePhase := Phase.playing, countdownTimer := 0, winner := none, tick := 0
  , powerUpSpawnTimer := 15 }

/-- On the pickup tick the flag's position is NOT the carrier's position: the
carrier stands at x = 300 while the just-picked-up flag stays at x = 290 (it
is snapped only by the flag phase of the NEXT call). -/
theorem flag_pickup_tick_counterexample :
    ((updateGameLogic wOracle cexPickupState).flag Team.blue).carrierId = some "a" ∧
      (lookupId "a" (updateGameLogic wOracle cexPickupState).players).map Player.x
        = some 300 ∧
      ((updateGameLogic wOracle cexPickupState).flag Team.blue).x = 290 := by
  refine ⟨?_, ?_, ?_⟩ <;> with_unfolding_all rfl

/-- Witness: in a state where `a` carries the red flag, the call ends with the
red flag still on `a`, exactly at `a`'s position. -/
theorem flag_follows_carrier_amended_witness :
    (wRemState.flag Team.red).carrierId = some "a" ∧
      (mkPlayer "a" "Alice" Team.blue 300 400 PState.carrying).state = PState.carrying ∧
      ((((updateGameLogic wOracle wRemState).flag Team.red).carrierId = some "a" ∧
          ∃ p', lookupId "a" (updateGameLogic wOracle wRemState).players = some p' ∧
            ((updateGameLogic wOracle wRemState).flag Team.red).x = p'.x ∧
            ((updateGameLogic wOracle wRemState).flag Team.red).y = p'.y) ∨
        ((updateGameLogic wOracle wRemState).flag Team.red).carrierId ≠ some "a") :=
  ⟨by with_unfolding_all rfl, rfl,
    flag_follows_carrier_amended wOracle wRemState Team.red "a" (by decide)
      (by unfold IdCoherent; with_unfolding_all decide) (by with_unfolding_all decide)
      (by with_unfolding_all rfl)
      (mkPlayer "a" "Alice" Team.blue 300 400 PState.carrying)
      (by with_unfolding_all rfl) rfl⟩

/-! ## Projectile hit resolution (C4) -/

/-- The bullet after the per-tick move of `updateProjectiles`. -/
def movedBullet (b0 : Projectile) : Projectile :=
  { b0 with x := b0.x + b0.vx * TICK, y := b0.y + b0.vy * TICK, life := b0.life - TICK }

theorem lookup_of_mem_nodup (l : List (String × Player)) (pid : String) (p : Player)
    (hmem : (pid, p) ∈ l) (hnd : (l.map Prod.fst).Nodup) : lookupId pid l = some p := by
  induction l with
  | nil => cases hmem
  | cons hd tl ih =>
    obtain ⟨k0, v⟩ := hd
    rw [List.map_cons, List.nodup_cons] at hnd
    rw [List.mem_cons] at hmem
    rw [lookupId]
    rcases hmem with heq | hmem
    · cases heq
      rw [if_pos rfl]
    · by_cases hk : k0 = pid
      · subst hk
        exact absurd (List.mem_map_of_mem Prod.fst hmem) hnd.1
      · rw [if_neg hk]
        exact ih hmem hnd.2

/-- C4: a projectile that survives the move (life and walls) and overlaps an
enemy player resolves exactly as claimed: the bullet is removed and no other
player is touched; a shielded target merely loses its shield (state preserved,
non-dead); an unshielded target dies with `respawnTimer = RESPAWN_TIME`, and,
if it was carrying, its victim-team's enemy flag is left at the victim's
position, uncarried, with `dropTimer = FLAG_RETURN_TIME > 0`. -/
theorem processBullet_hit_resolution (s : GameState) (b0 : Projectile)
    (pid : String) (p : Player)
    (hnd : (s.players.map Prod.fst).Nodup)
    (hlife : ¬(movedBullet b0).life ≤ 0)
    (hwall : ¬isWall (worldToTile (movedBullet b0).x (movedBullet b0).y).1
        (worldToTile (movedBullet b0).x (movedBullet b0).y).2 = true)
    (hhit : hitScan s.players (movedBullet b0) = some (pid, p)) :
    (processBullet s b0).2 = none ∧
      (∀ q, q ≠ pid →
        lookupId q (processBullet s b0).1.players = lookupId q s.players) ∧
      (p.shieldActive = true →
        ∃ h, lookupId pid (processBullet s b0).1.players = some h ∧
          h.shieldActive = false ∧ h.shieldTimer = 0 ∧ h.state = p.state ∧
          h.state ≠ PState.dead) ∧
      (p.shieldActive = false →
        (∃ h, lookupId pid (processBullet s b0).1.players = some h ∧
          h.state = PState.dead ∧ h.respawnTimer = RESPAWN_TIME) ∧
        (p.state = PState.carrying →
          ((processBullet s b0).1.flag p.team.other).x = p.x ∧
          ((processBullet s b0).1.flag p.team.other).y = p.y ∧
          ((processBullet s b0).1.flag p.team.other).carrierId = none ∧
          ((processBullet s b0).1.flag p.team.other).dropTimer = FLAG_RETURN_TIME ∧
          (0 : ℚ) < FLAG_RETURN_TIME)) := by
  have hhit2 := hhit
  unfold hitScan at hhit2
  have hmem := List.mem_of_find?_eq_some hhit2
  have hpred := List.find?_some hhit2
  have hlk : lookupId pid s.players = some p := lookup_of_mem_nodup s.players pid p hmem hnd
  have hpdead : p.state ≠ PState.dead := by
    simp only [Bool.and_eq_true, Bool.not_eq_true'] at hpred
    intro hd
    have hb := hpred.1.2
    rw [hd] at hb
    simp at hb
  unfold processBullet
  simp only
  split
  · rename_i h
    exact absurd h hlife
  · split
    · rename_i h
      exact absurd h hwall
    · split
      · rename_i h
        exact Option.noConfusion (hhit.symm.trans h)
      · rename_i pid' p' h
        have hpq := Option.some.inj (hhit.symm.trans h)
        injection hpq with h1 h2
        subst h1
        subst h2
        split
        · rename_i hsh
          refine ⟨rfl, ?_, ?_, ?_⟩
          · intro q hq
            show lookupId q (updateId pid _ s.players) = _
            exact lookupId_updateId_ne pid q (Ne.symm hq) _ _
          · intro _
            refine ⟨{ p with shieldActive := false, shieldTimer := 0 }, ?_, rfl, rfl, rfl,
              hpdead⟩
            show lookupId pid (updateId pid _ s.players) = _
            rw [lookupId_updateId_self, hlk]
            rfl
          · intro hfalse
            exact Bool.noConfusion (hsh.symm.trans hfalse)
        · rename_i hsh
          refine ⟨rfl, ?_, fun htrue => absurd htrue hsh, ?_⟩
          · intro q hq
            by_cases hcarr : p.state = PState.carrying
            · rw [killPlayer_eq_carrying pid p _ s hcarr]
              unfold killWrap
              rw [addEvent_players]
              show lookupId q (updateId pid killFn _) = _
              rw [lookupId_updateId_ne pid q (Ne.symm hq), setFlag_players]
            · rw [killPlayer_eq_not pid p _ s hcarr]
              unfold killWrap
              rw [addEvent_players]
              show lookupId q (updateId pid killFn _) = _
              exact lookupId_updateId_ne pid q (Ne.symm hq) _ _
          · intro _
            constructor
            · by_cases hcarr : p.state = PState.carrying
              · rw [killPlayer_eq_carrying pid p _ s hcarr]
                unfold killWrap
                rw [addEvent_players]
                refine ⟨killFn p, ?_, rfl, rfl⟩
                show lookupId pid (updateId pid killFn _) = _
                rw [lookupId_updateId_self, setFlag_players, hlk]
                rfl
              · rw [killPlayer_eq_not pid p _ s hcarr]
                unfold killWrap
                rw [addEvent_players]
                refine ⟨killFn p, ?_, rfl, rfl⟩
                show lookupId pid (updateId pid killFn _) = _
                rw [lookupId_updateId_self, hlk]
                rfl
            · intro hcarr
              rw [killPlayer_eq_carrying pid p _ s hcarr]
              unfold killWrap
              rw [addEvent_flag, players_flag_update, setFlag_flag_self]
              exact ⟨rfl, rfl, rfl, rfl, by norm_num [FLAG_RETURN_TIME]⟩

/-- An unshielded red flag-carrier in open floor, 4 units from a blue bullet. -/
def wKillState : GameState :=
  { players := [("v", mkPlayer "v" "Vic" Team.red 300 400 PState.carrying)]
  , blueFlag := { mkFlag Team.blue 300 400 208 400 with carrierId := some "v" }
  , redFlag := mkFlag Team.red 1072 400 1072 400
  , score := ⟨0, 0⟩, powerUps := [], projectiles := [], events := []
  , gamePhase := Phase.playing, countdownTimer := 0, winner := none, tick := 0
  , powerUpSpawnTimer := 15 }

def wBullet : Projectile :=
  { id := "b1", ownerId := "shooter", team := Team.blue, x := 296, y := 400,
    vx := 0, vy := 0, life := 1 }

/-- Witness for the hit resolution at a concrete kill: the victim dies, drops
the blue flag in place, and the bullet disappears. -/
theorem processBullet_hit_resolution_witness :
    (¬(movedBullet wBullet).life ≤ 0) ∧
      hitScan wKillState.players (movedBullet wBullet)
        = some ("v", mkPlayer "v" "Vic" Team.red 300 400 PState.carrying) ∧
      ((processBullet wKillState wBullet).2 = none ∧
        (∀ q, q ≠ "v" →
          lookupId q (processBullet wKillState wBullet).1.players
            = lookupId q wKillState.players) ∧
        ((mkPlayer "v" "Vic" Team.red 300 400 PState.carrying).shieldActive = true →
          ∃ h, lookupId "v" (processBullet wKillState wBullet).1.players = some h ∧
            h.shieldActive = false ∧ h.shieldTimer = 0 ∧
            h.state = (mkPlayer "v" "Vic" Team.red 300 400 PState.carrying).state ∧
            h.state ≠ PState.dead) ∧
        ((mkPlayer "v" "Vic" Team.red 300 400 PState.carrying).shieldActive = false →
          (∃ h, lookupId "v" (processBullet wKillState wBullet).1.players = some h ∧
            h.state = PState.dead ∧ h.respawnTimer = RESPAWN_TIME) ∧
          ((mkPlayer "v" "Vic" Team.red 300 400 PState.carrying).state
              = PState.carrying →
            ((processBullet wKillState wBullet).1.flag
                (mkPlayer "v" "Vic" Team.red 300 400 PState.carrying).team.other).x
              = (mkPlayer "v" "Vic" Team.red 300 400 PState.carrying).x ∧
            ((processBullet wKillState wBullet).1.flag
                (mkPlayer "v" "Vic" Team.red 300 400 PState.carrying).team.other).y
              = (mkPlayer "v" "Vic" Team.red 300 400 PState.carrying).y ∧
            ((processBullet wKillState wBullet).1.flag
                (mkPlayer "v" "Vic" Team.red 300 400 PState.carrying).team.other).carrierId
              = none ∧
            ((processBullet wKillState wBullet).1.flag
                (mkPlayer "v" "Vic" Team.red 300 400 PState.carrying).team.other).dropTimer
              = FLAG_RETURN_TIME ∧
            (0 : ℚ) < FLAG_RETURN_TIME))) :=
  ⟨by with_unfolding_all decide, by with_unfolding_all rfl,
    processBullet_hit_resolution wKillState wBullet "v"
      (mkPlayer "v" "Vic" Team.red 300 400 PState.carrying)
      (by with_unfolding_all decide) (by with_unfolding_all decide)
      (by with_unfolding_all decide) (by with_unfolding_all rfl)⟩

/-- C7: the one-shot dash guard of the input manager is ineffective against
keyboard auto-repeat.  In the browser trace `space down, w down, space down`
— a single held space keypress, with no `keyup` of space anywhere — the
manager emits 16 (dash asserted), then 1 (dash consumed), then 17 (dash
RE-asserted together with up), because `update()` clears `dashPressed`
after sending, so the `!dashPressed` test in `handleKeyDown` passes again on
the auto-repeated keydown.  This violates the claim that the encoding never
re-asserts the dash bit after consumption within the same held keypress. -/
theorem input_dash_reassert_bug :
    (imRun IMState.init [KeyEv.down " ", KeyEv.down "w", KeyEv.down " "]).2
        = [16, 1, 17] ∧
      ([KeyEv.down " ", KeyEv.down "w", KeyEv.down " "].all
        (fun e => decide (e ≠ KeyEv.up " "))) = true ∧
      (inputDecode 16).dash = true ∧ (inputDecode 1).dash = false ∧
      (inputDecode 17).dash = true := by
  refine ⟨?_, ?_, ?_, ?_, ?_⟩ <;> with_unfolding_all decide

/-! ## Remote input retention (C8) -/

/-- The last input received from a quiet remote peer: right held. -/
def rightInput : InputState :=
  { up := false, down := false, left := false, right := true, dash := false, shoot := false }

/-- One host tick of a remote player under the stored `rightInput`. -/
def driftStep (q : Player) : Player := updatePlayer q rightInput TICK

/-- A remote player cruising at full speed when its input stream went quiet. -/
def driftPlayer : Player :=
  { mkPlayer "r" "Remo" Team.red 300 400 PState.alive with vx := PLAYER_SPEED }

/-- The velocity-relevant part of the player state that the retained input
reproduces tick after tick. -/
def DriftInv (p : Player) : Prop :=
  p.state = PState.alive ∧ p.dashCooldown = 0 ∧ p.shootCooldown = 0 ∧ p.shieldTimer = 0 ∧
    p.speedBoostTimer = 0 ∧ p.flashTimer = 0 ∧ p.isDashing = false ∧
    p.speedBoostActive = false ∧ p.vx = PLAYER_SPEED ∧ p.vy = 0

set_option maxRecDepth 10000 in
theorem driftStep_inv (p : Player) (h : DriftInv p) : DriftInv (driftStep p) := by
  obtain ⟨h1, h2, h3, h4, h5, h6, h7, h8, h9, h10⟩ := h
  have hr1 : ratSqrt (1 : ℚ) = 1 := by
    have h := ratSqrt_sq 1 (by norm_num)
    rwa [show (1 : ℚ) * 1 = 1 by norm_num] at h
  have hr0 : ratSqrt (0 : ℚ) = 0 := by
    have h := ratSqrt_sq 0 (by norm_num)
    rwa [show (0 : ℚ) * 0 = 0 by norm_num] at h
  have hdir : ¬(Direction.right = Direction.idle) := by decide
  have hnd : ¬p.state = PState.dead := by rw [h1]; exact fun he => nomatch he
  unfold DriftInv driftStep updatePlayer getDirection rightInput
  rw [if_neg hnd]
  by_cases hA : (1 : ℚ)/5 < p.animTimer + TICK
  · norm_num [h1, h2, h3, h4, h5, h6, h7, h8, h9, h10, hA, hr1, hr0, hdir]
  · norm_num [h1, h2, h3, h4, h5, h6, h7, h8, h9, h10, hA, hr1, hr0, hdir]

theorem drift_inv_iterate (n : ℕ) : DriftInv (driftStep^[n] driftPlayer) := by
  induction n with
  | zero => exact ⟨rfl, rfl, rfl, rfl, rfl, rfl, rfl, rfl, rfl, rfl⟩
  | succ n ih =>
    rw [Function.iterate_succ_apply']
    exact driftStep_inv _ ih

/-- Under the retained input the remote player's speed stays `PLAYER_SPEED`
on every future tick. -/
theorem drift_vx (n : ℕ) : (driftStep^[n] driftPlayer).vx = PLAYER_SPEED :=
  (drift_inv_iterate n).2.2.2.2.2.2.2.2.1

/-- C8 counterexample: there is NO bound after which the quiet remote player
stops — its speed stays `PLAYER_SPEED = 200` forever under the retained
input, never decaying to zero. -/
theorem remote_input_no_stop_counterexample :
    ¬∃ N : ℕ, ∀ n : ℕ, N ≤ n → (driftStep^[n] driftPlayer).vx = 0 := by
  rintro ⟨N, hN⟩
  have h0 := hN N le_rfl
  rw [drift_vx] at h0
  norm_num [PLAYER_SPEED] at h0

/-- C8 (amended): the host holds the last received input indefinitely.  The
remote phase drives a present, non-local, non-bot remote player with the
STORED `InputState` each tick; the `client-input` handler only ever inserts
or overwrites entries (never removes or expires one); and a player whose
last command was "move right" keeps `vx = PLAYER_SPEED` on every future tick
— it does not decelerate to zero as the claim asserts. -/
theorem remote_input_held_amended (localId rid : String) (inp : InputState) (dt : ℚ)
    (s : GameState) (p : Player)
    (hne : rid ≠ localId) (hbot : rid.startsWith "bot-" = false)
    (hp : lookupId rid s.players = some p) :
    remotePhase localId [(rid, inp)] dt s
        = { s with players := updateId rid (fun _ => updatePlayer p inp dt) s.players } ∧
      (∀ l id k, (hostReceiveInput l id k).map Prod.fst = l.map Prod.fst ∨
        (hostReceiveInput l id k).map Prod.fst = l.map Prod.fst ++ [id]) ∧
      (∀ n : ℕ, (driftStep^[n] driftPlayer).vx = PLAYER_SPEED) := by
  refine ⟨?_, ?_, drift_vx⟩
  · unfold remotePhase
    simp only [List.foldl_cons, List.foldl_nil]
    rw [hp]
    simp only
    rw [if_pos ⟨hne, by rw [hbot]; exact fun he => nomatch he⟩]
  · intro l id k
    unfold hostReceiveInput
    split
    · left
      exact updateId_keys id _ l
    · right
      rw [List.map_append]
      rfl

/-- The host state holding only the quiet remote player. -/
def wDriftState : GameState :=
  { players := [("r", driftPlayer)]
  , blueFlag := mkFlag Team.blue 208 400 208 400
  , redFlag := mkFlag Team.red 1072 400 1072 400
  , score := ⟨0, 0⟩, powerUps := [], projectiles := [], events := []
  , gamePhase := Phase.playing, countdownTimer := 0, winner := none, tick := 0
  , powerUpSpawnTimer := 15 }

/-- Witness: one concrete host tick really steps the quiet remote player with
the stored right-input, and its speed never decays. -/
theorem remote_input_held_amended_witness :
    ("r" : String) ≠ "host" ∧
      lookupId "r" wDriftState.players = some driftPlayer ∧
      (remotePhase "host" [("r", rightInput)] TICK wDriftState
          = { wDriftState with players := updateId "r" (fun _ =>
                updatePlayer driftPlayer rightInput TICK) wDriftState.players } ∧
        (∀ l id k, (hostReceiveInput l id k).map Prod.fst = l.map Prod.fst ∨
          (hostReceiveInput l id k).map Prod.fst = l.map Prod.fst ++ [id]) ∧
        (∀ n : ℕ, (driftStep^[n] driftPlayer).vx = PLAYER_SPEED)) :=
  ⟨by decide, by with_unfolding_all rfl,
    remote_input_held_amended "host" "r" rightInput TICK wDriftState driftPlayer
      (by decide) (by decide) (by with_unfolding_all rfl)⟩

/-! ## Codec roundtrip (C2) -/

/-- `Math.round` lands within half a unit. -/
theorem jsRound_close (x : ℚ) : |((jsRound x : ℤ) : ℚ) - x| ≤ 1/2 := by
  unfold jsRound
  rw [abs_le]
  constructor
  · have h := Int.sub_one_lt_floor (x + 1/2)
    have h2 : ((⌊x + 1/2⌋ : ℤ) : ℚ) > x + 1/2 - 1 := by exact_mod_cast h
    linarith
  · have h := Int.floor_le (x + 1/2)
    linarith

/-- Quantising with `Math.round(q * m) / m` loses at most `1/(2m)`. -/
theorem round_scale_close (q m : ℚ) (hm : 0 < m) :
    |((jsRound (q * m) : ℤ) : ℚ) / m - q| ≤ 1 / (2 * m) := by
  have h := jsRound_close (q * m)
  have hrw : ((jsRound (q * m) : ℤ) : ℚ) / m - q
      = (((jsRound (q * m) : ℤ) : ℚ) - q * m) / m := by
    field_simp
    ring
  rw [hrw, abs_div, abs_of_pos hm]
  rw [div_le_div_iff₀ hm (by positivity)]
  calc |((jsRound (q * m) : ℤ) : ℚ) - q * m| * (2 * m)
      ≤ (1/2) * (2 * m) := by
        apply mul_le_mul_of_nonneg_right h
        positivity
    _ = 1 * m := by ring

/-- First-match lookup finds a member entry when the keys are duplicate-free. -/
theorem lookupId_of_mem_nodup {α : Type} (l : List (String × α)) (k : String) (v : α)
    (hmem : (k, v) ∈ l) (hnd : (l.map Prod.fst).Nodup) : lookupId k l = some v := by
  induction l with
  | nil => cases hmem
  | cons hd tl ih =>
    obtain ⟨k0, v0⟩ := hd
    rw [List.map_cons, List.nodup_cons] at hnd
    rw [List.mem_cons] at hmem
    rw [lookupId]
    rcases hmem with heq | hmem
    · cases heq
      rw [if_pos rfl]
    · by_cases hk : k0 = k
      · subst hk
        exact absurd (List.mem_map_of_mem Prod.fst hmem) hnd.1
      · rw [if_neg hk]
        exact ih hmem hnd.2

/-- Pointwise relation between a list and its image under a map. -/
theorem forall₂_map_self {α β : Type} (R : α → β → Prop) (g : α → β) (l : List α)
    (h : ∀ a ∈ l, R a (g a)) : List.Forall₂ R l (l.map g) := by
  induction l with
  | nil => exact List.Forall₂.nil
  | cons a tl ih =>
    exact List.Forall₂.cons (h a (List.mem_cons_self _ _))
      (ih (fun x hx => h x (List.mem_cons_of_mem _ hx)))

/-- Pointwise relation against an enumerated image when the index is
irrelevant to the relation. -/
theorem forall₂_enumFrom_map {α β γ : Type} (R : α → γ → Prop) (f : α → β)
    (g : ℕ × β → γ) (l : List α) (h : ∀ a ∈ l, ∀ i : ℕ, R a (g (i, f a))) :
    ∀ n : ℕ, List.Forall₂ R l (((l.map f).enumFrom n).map g) := by
  induction l with
  | nil => intro n; exact List.Forall₂.nil
  | cons a tl ih =>
    intro n
    rw [List.map_cons, List.enumFrom_cons, List.map_cons]
    exact List.Forall₂.cons (h a (List.mem_cons_self _ _) n)
      (ih (fun x hx i => h x (List.mem_cons_of_mem _ hx) i) (n + 1))

/-- The per-player encoder of `encodeGameState`, as a named function. -/
def encPlayer3 (p : Player3) : CPlayer :=
  CPlayer.mk (jsRound (p.x * 100)) (jsRound (p.z * 100)) (jsRound (p.yaw * 1000))
    (jsRound (p.pitch * 1000)) (stateBitsOf p.state) (teamBitOf p.team)
    ((if p.isDashing then 1 else 0) + (if p.shieldActive then 2 else 0) +
      (if p.speedBoostActive then 4 else 0))
    (jsRound (p.shootCooldown * 100))

/-- The per-player decoder of `decodeGameState`, as a named function. -/
def decPlayer3 (existing : GameState3) (id : String) (d : CPlayer) : Player3 :=
  let ep := lookupId id existing.players
  Player3.mk id
    (match ep with
      | some e => if e.name = "" then idTrunc id else e.name
      | Option.none => idTrunc id)
    (if d.teamBit = 0 then Team.blue else Team.red)
    ((d.px : ℚ) / 100) 0 ((d.pz : ℚ) / 100)
    (match ep with | some e => e.vx | Option.none => 0) 0
    (match ep with | some e => e.vz | Option.none => 0)
    ((d.pyaw : ℚ) / 1000) ((d.ppitch : ℚ) / 1000)
    (if d.stateBits = 0 then PState.alive
      else if d.stateBits = 1 then PState.dead else PState.carrying)
    100
    (match ep with | some e => e.dashCooldown | Option.none => 0)
    (d.flagBits.land 1 ≠ 0)
    (match ep with | some e => e.dashTimer | Option.none => 0)
    (match ep with | some e => e.respawnTimer | Option.none => 0)
    (d.flagBits.land 2 ≠ 0)
    (match ep with | some e => e.shieldTimer | Option.none => 0)
    (d.flagBits.land 4 ≠ 0)
    (match ep with | some e => e.speedBoostTimer | Option.none => 0)
    ((d.pcool : ℚ) / 100)
    (match ep with | some e => e.flashTimer | Option.none => 0)

theorem encode_p_eq (W : GameState3) :
    (encodeGameState W).p = W.players.map (fun kv => (kv.1, encPlayer3 kv.2)) := rfl

theorem decode_players_eq (c : CompactGameState) (ex : GameState3) :
    (decodeGameState c ex).players
      = c.p.map (fun kv => (kv.1, decPlayer3 ex kv.1 kv.2)) := rfl

/-- One player through the wire and back: encoded fields within quantisation
error, non-encoded fields merged exactly from the existing entry. -/
theorem decEnc_player_spec (W : GameState3) (k : String) (p : Player3)
    (hlk : lookupId k W.players = some p) (hname : p.name ≠ "")
    (hy : p.y = 0) (hvy : p.vy = 0) :
    (decPlayer3 W k (encPlayer3 p)).name = p.name ∧
      (decPlayer3 W k (encPlayer3 p)).team = p.team ∧
      |(decPlayer3 W k (encPlayer3 p)).x - p.x| ≤ 1/100 ∧
      (decPlayer3 W k (encPlayer3 p)).y = p.y ∧
      |(decPlayer3 W k (encPlayer3 p)).z - p.z| ≤ 1/100 ∧
      (decPlayer3 W k (encPlayer3 p)).vx = p.vx ∧
      (decPlayer3 W k (encPlayer3 p)).vy = p.vy ∧
      (decPlayer3 W k (encPlayer3 p)).vz = p.vz ∧
      |(decPlayer3 W k (encPlayer3 p)).yaw - p.yaw| ≤ 1/1000 ∧
      |(decPlayer3 W k (encPlayer3 p)).pitch - p.pitch| ≤ 1/1000 ∧
      (decPlayer3 W k (encPlayer3 p)).state = p.state ∧
      (decPlayer3 W k (encPlayer3 p)).dashCooldown = p.dashCooldown ∧
      (decPlayer3 W k (encPlayer3 p)).isDashing = p.isDashing ∧
      (decPlayer3 W k (encPlayer3 p)).dashTimer = p.dashTimer ∧
      (decPlayer3 W k (encPlayer3 p)).respawnTimer = p.respawnTimer ∧
      (decPlayer3 W k (encPlayer3 p)).shieldActive = p.shieldActive ∧
      (decPlayer3 W k (encPlayer3 p)).shieldTimer = p.shieldTimer ∧
      (decPlayer3 W k (encPlayer3 p)).speedBoostActive = p.speedBoostActive ∧
      (decPlayer3 W k (encPlayer3 p)).speedBoostTimer = p.speedBoostTimer ∧
      |(decPlayer3 W k (encPlayer3 p)).shootCooldown - p.shootCooldown| ≤ 1/100 ∧
      (decPlayer3 W k (encPlayer3 p)).flashTimer = p.flashTimer := by
  have hq : ∀ q : ℚ, |((jsRound (q * 100) : ℤ) : ℚ) / 100 - q| ≤ 1/100 := by
    intro q
    have h := round_scale_close q 100 (by norm_num)
    calc |((jsRound (q * 100) : ℤ) : ℚ) / 100 - q| ≤ 1 / (2 * 100) := h
      _ ≤ 1/100 := by norm_num
  have hq3 : ∀ q : ℚ, |((jsRound (q * 1000) : ℤ) : ℚ) / 1000 - q| ≤ 1/1000 := by
    intro q
    have h := round_scale_close q 1000 (by norm_num)
    calc |((jsRound (q * 1000) : ℤ) : ℚ) / 1000 - q| ≤ 1 / (2 * 1000) := h
      _ ≤ 1/1000 := by norm_num
  unfold decPlayer3 encPlayer3
  simp only [hlk]
  and_intros <;>
    first
      | trivial
      | exact hy.symm
      | exact hvy.symm
      | exact hq p.x
      | exact hq p.z
      | exact hq p.shootCooldown
      | exact hq3 p.yaw
      | exact hq3 p.pitch
      | rw [if_neg hname]
      | (cases p.team <;> rfl)
      | (cases p.state <;> rfl)
      | (cases p.isDashing <;> cases p.shieldActive <;> cases p.speedBoostActive <;> simp <;> decide)

theorem quant100 (q : ℚ) : |((jsRound (q * 100) : ℤ) : ℚ) / 100 - q| ≤ 1/100 :=
  le_trans (round_scale_close q 100 (by norm_num)) (by norm_num)

theorem quant1000 (q : ℚ) : |((jsRound (q * 1000) : ℤ) : ℚ) / 1000 - q| ≤ 1/1000 :=
  le_trans (round_scale_close q 1000 (by norm_num)) (by norm_num)

theorem quant10 (q : ℚ) : |((jsRound (q * 10) : ℤ) : ℚ) / 10 - q| ≤ 1/20 :=
  le_trans (round_scale_close q 10 (by norm_num)) (by norm_num)

def encFlag3 (f : Flag3) : CFlag :=
  CFlag.mk (jsRound (f.x * 100)) (jsRound (f.z * 100)) f.carrierId (jsRound (f.dropTimer * 10))

def decFlag3 (f : Flag3) (cf : CFlag) : Flag3 :=
  { f with x := (cf.fx : ℚ) / 100, z := (cf.fz : ℚ) / 100, carrierId := cf.carrier,
           dropTimer := (cf.drop : ℚ) / 10 }

theorem encode_fblue_eq (W : GameState3) : (encodeGameState W).fblue = encFlag3 W.blueFlag := rfl

theorem encode_fred_eq (W : GameState3) : (encodeGameState W).fred = encFlag3 W.redFlag := rfl

theorem decode_blue_eq (c : CompactGameState) (ex : GameState3) :
    (decodeGameState c ex).blueFlag = decFlag3 ex.blueFlag c.fblue := rfl

theorem decode_red_eq (c : CompactGameState) (ex : GameState3) :
    (decodeGameState c ex).redFlag = decFlag3 ex.redFlag c.fred := rfl

def encPow3 (p : PowerUp3) : CPow :=
  CPow.mk (match p.type with | .speed => 0 | .shield => 1 | .dashReset => 2)
    (jsRound (p.x * 100)) (jsRound (p.z * 100)) p.id

def decPow3 (pw : CPow) : PowerUp3 :=
  PowerUp3.mk pw.id
    ([PowerUpType.speed, PowerUpType.shield, PowerUpType.dashReset].getD pw.ty
      PowerUpType.speed)
    ((pw.px : ℚ) / 100) ((pw.pz : ℚ) / 100) 0 true

theorem encode_pw_eq (W : GameState3) :
    (encodeGameState W).pw = (W.powerUps.filter (fun p => p.active)).map encPow3 := rfl

theorem decode_pw_eq (c : CompactGameState) (ex : GameState3) :
    (decodeGameState c ex).powerUps = c.pw.map decPow3 := rfl

def encBullet3 (b : Projectile3) : CBullet :=
  CBullet.mk (jsRound (b.x * 100)) (jsRound (b.z * 100)) (jsRound (b.y * 100))
    (jsRound (b.vx * 10)) (jsRound (b.vz * 10)) (jsRound (b.vy * 10)) (teamBitOf b.team)

def decBullet3 (ib : ℕ × CBullet) : Projectile3 :=
  Projectile3.mk ("net-" ++ toString ib.1) "" (if ib.2.teamBit = 0 then .blue else .red)
    ((ib.2.bx : ℚ) / 100) ((ib.2.by' : ℚ) / 100) ((ib.2.bz : ℚ) / 100)
    ((ib.2.bvx : ℚ) / 10) ((ib.2.bvy : ℚ) / 10) ((ib.2.bvz : ℚ) / 10) 1

theorem encode_b_eq (W : GameState3) : (encodeGameState W).b = W.projectiles.map encBullet3 := rfl

theorem decode_b_eq (c : CompactGameState) (ex : GameState3) :
    (decodeGameState c ex).projectiles = c.b.enum.map decBullet3 := rfl

theorem decode_phase_eq (c : CompactGameState) (ex : GameState3) :
    (decodeGameState c ex).gamePhase
      = (if c.ph = 'w' then Phase.waiting
         else if c.ph = 'c' then Phase.countdown
         else if c.ph = 'p' then Phase.playing else Phase.gameover) := rfl

theorem encode_ph_eq (W : GameState3) :
    (encodeGameState W).ph
      = (match W.gamePhase with
          | .waiting => 'w' | .countdown => 'c' | .playing => 'p' | .gameover => 'g') := rfl

theorem decode_ct_eq (c : CompactGameState) (ex : GameState3) :
    (decodeGameState c ex).countdownTimer = (c.ct : ℚ) / 10 := rfl

theorem encode_ct_eq (W : GameState3) :
    (encodeGameState W).ct = jsRound (W.countdownTimer * 10) := rfl

/-- `decode(encode(W), W)` — the wire roundtrip against merge base `W`. -/
def codecRoundtrip (W : GameState3) : GameState3 :=
  decodeGameState (encodeGameState W) W

/-- C2: for a valid world state (duplicate-free player keys, nonempty names,
players on the ground with no vertical velocity), `decode(encode(W), W)`
reproduces every encoded field within the quantisation tolerance — positions
within 0.01 world units, yaw/pitch within 0.001 radians — and copies every
non-encoded field (name, velocity, dash/respawn/shield/speed-boost timers)
exactly from the merge-base argument `W`. -/
theorem codec_roundtrip (W : GameState3)
    (hnd : (W.players.map Prod.fst).Nodup)
    (hnames : ∀ kv ∈ W.players, kv.2.name ≠ "")
    (hvert : ∀ kv ∈ W.players, kv.2.y = 0 ∧ kv.2.vy = 0) :
    List.Forall₂ (fun (kv kv' : String × Player3) =>
        kv'.1 = kv.1 ∧
        (kv'.2.name = kv.2.name ∧ kv'.2.team = kv.2.team ∧
          |kv'.2.x - kv.2.x| ≤ 1/100 ∧ kv'.2.y = kv.2.y ∧ |kv'.2.z - kv.2.z| ≤ 1/100 ∧
          kv'.2.vx = kv.2.vx ∧ kv'.2.vy = kv.2.vy ∧ kv'.2.vz = kv.2.vz ∧
          |kv'.2.yaw - kv.2.yaw| ≤ 1/1000 ∧ |kv'.2.pitch - kv.2.pitch| ≤ 1/1000 ∧
          kv'.2.state = kv.2.state ∧ kv'.2.dashCooldown = kv.2.dashCooldown ∧
          kv'.2.isDashing = kv.2.isDashing ∧ kv'.2.dashTimer = kv.2.dashTimer ∧
          kv'.2.respawnTimer = kv.2.respawnTimer ∧
          kv'.2.shieldActive = kv.2.shieldActive ∧ kv'.2.shieldTimer = kv.2.shieldTimer ∧
          kv'.2.speedBoostActive = kv.2.speedBoostActive ∧
          kv'.2.speedBoostTimer = kv.2.speedBoostTimer ∧
          |kv'.2.shootCooldown - kv.2.shootCooldown| ≤ 1/100 ∧
          kv'.2.flashTimer = kv.2.flashTimer))
      W.players (codecRoundtrip W).players ∧
    (|(codecRoundtrip W).blueFlag.x - W.blueFlag.x| ≤ 1/100 ∧
      |(codecRoundtrip W).blueFlag.z - W.blueFlag.z| ≤ 1/100 ∧
      (codecRoundtrip W).blueFlag.carrierId = W.blueFlag.carrierId ∧
      |(codecRoundtrip W).blueFlag.dropTimer - W.blueFlag.dropTimer| ≤ 1/20 ∧
      (codecRoundtrip W).blueFlag.y = W.blueFlag.y ∧
      (codecRoundtrip W).blueFlag.team = W.blueFlag.team ∧
      (codecRoundtrip W).blueFlag.baseX = W.blueFlag.baseX ∧
      (codecRoundtrip W).blueFlag.baseZ = W.blueFlag.baseZ) ∧
    (|(codecRoundtrip W).redFlag.x - W.redFlag.x| ≤ 1/100 ∧
      |(codecRoundtrip W).redFlag.z - W.redFlag.z| ≤ 1/100 ∧
      (codecRoundtrip W).redFlag.carrierId = W.redFlag.carrierId ∧
      |(codecRoundtrip W).redFlag.dropTimer - W.redFlag.dropTimer| ≤ 1/20 ∧
      (codecRoundtrip W).redFlag.y = W.redFlag.y ∧
      (codecRoundtrip W).redFlag.team = W.redFlag.team ∧
      (codecRoundtrip W).redFlag.baseX = W.redFlag.baseX ∧
      (codecRoundtrip W).redFlag.baseZ = W.redFlag.baseZ) ∧
    (codecRoundtrip W).score = W.score ∧
    List.Forall₂ (fun (pu pu' : PowerUp3) =>
        pu'.id = pu.id ∧ pu'.type = pu.type ∧ |pu'.x - pu.x| ≤ 1/100 ∧
        |pu'.z - pu.z| ≤ 1/100 ∧ pu'.active = true)
      (W.powerUps.filter (fun p => p.active)) (codecRoundtrip W).powerUps ∧
    List.Forall₂ (fun (b b' : Projectile3) =>
        |b'.x - b.x| ≤ 1/100 ∧ |b'.y - b.y| ≤ 1/100 ∧ |b'.z - b.z| ≤ 1/100 ∧
        b'.team = b.team)
      W.projectiles (codecRoundtrip W).projectiles ∧
    (codecRoundtrip W).gamePhase = W.gamePhase ∧
    |(codecRoundtrip W).countdownTimer - W.countdownTimer| ≤ 1/20 ∧
    (codecRoundtrip W).winner = W.winner ∧
    (codecRoundtrip W).tick = W.tick := by
  unfold codecRoundtrip
  refine ⟨?_, ?_, ?_, rfl, ?_, ?_, ?_, ?_, rfl, rfl⟩
  · rw [decode_players_eq, encode_p_eq, List.map_map]
    apply forall₂_map_self
    intro kv hkv
    obtain ⟨k, p⟩ := kv
    have hlk := lookupId_of_mem_nodup W.players k p hkv hnd
    exact ⟨rfl, decEnc_player_spec W k p hlk (hnames (k, p) hkv)
      (hvert (k, p) hkv).1 (hvert (k, p) hkv).2⟩
  · rw [decode_blue_eq, encode_fblue_eq]
    exact ⟨quant100 _, quant100 _, rfl, quant10 _, rfl, rfl, rfl, rfl⟩
  · rw [decode_red_eq, encode_fred_eq]
    exact ⟨quant100 _, quant100 _, rfl, quant10 _, rfl, rfl, rfl, rfl⟩
  · rw [decode_pw_eq, encode_pw_eq, List.map_map]
    apply forall₂_map_self
    intro pu hpu
    obtain ⟨pid, pty, ppx, ppz, pat, pac⟩ := pu
    exact ⟨rfl, by cases pty <;> rfl, quant100 _, quant100 _, rfl⟩
  · rw [decode_b_eq, encode_b_eq]
    rw [show (W.projectiles.map encBullet3).enum
        = (W.projectiles.map encBullet3).enumFrom 0 from rfl]
    refine forall₂_enumFrom_map _ encBullet3 decBullet3 W.projectiles ?_ 0
    rintro ⟨bid, bo, bteam, bx, byy, bz, bvx, bvy, bvz, bl⟩ hb i
    exact ⟨quant100 _, quant100 _, quant100 _, by cases bteam <;> rfl⟩
  · rw [decode_phase_eq, encode_ph_eq]
    cases W.gamePhase <;> rfl
  · rw [decode_ct_eq, encode_ct_eq]
    exact quant10 _

/-- The roundtrip guarantees of `codec_roundtrip`, at one state. -/
def CodecSpec (W : GameState3) : Prop :=
  List.Forall₂ (fun (kv kv' : String × Player3) =>
      kv'.1 = kv.1 ∧
      (kv'.2.name = kv.2.name ∧ kv'.2.team = kv.2.team ∧
        |kv'.2.x - kv.2.x| ≤ 1/100 ∧ kv'.2.y = kv.2.y ∧ |kv'.2.z - kv.2.z| ≤ 1/100 ∧
        kv'.2.vx = kv.2.vx ∧ kv'.2.vy = kv.2.vy ∧ kv'.2.vz = kv.2.vz ∧
        |kv'.2.yaw - kv.2.yaw| ≤ 1/1000 ∧ |kv'.2.pitch - kv.2.pitch| ≤ 1/1000 ∧
        kv'.2.state = kv.2.state ∧ kv'.2.dashCooldown = kv.2.dashCooldown ∧
        kv'.2.isDashing = kv.2.isDashing ∧ kv'.2.dashTimer = kv.2.dashTimer ∧
        kv'.2.respawnTimer = kv.2.respawnTimer ∧
        kv'.2.shieldActive = kv.2.shieldActive ∧ kv'.2.shieldTimer = kv.2.shieldTimer ∧
        kv'.2.speedBoostActive = kv.2.speedBoostActive ∧
        kv'.2.speedBoostTimer = kv.2.speedBoostTimer ∧
        |kv'.2.shootCooldown - kv.2.shootCooldown| ≤ 1/100 ∧
        kv'.2.flashTimer = kv.2.flashTimer))
    W.players (codecRoundtrip W).players ∧
  (|(codecRoundtrip W).blueFlag.x - W.blueFlag.x| ≤ 1/100 ∧
    |(codecRoundtrip W).blueFlag.z - W.blueFlag.z| ≤ 1/100 ∧
    (codecRoundtrip W).blueFlag.carrierId = W.blueFlag.carrierId ∧
    |(codecRoundtrip W).blueFlag.dropTimer - W.blueFlag.dropTimer| ≤ 1/20 ∧
    (codecRoundtrip W).blueFlag.y = W.blueFlag.y ∧
    (codecRoundtrip W).blueFlag.team = W.blueFlag.team ∧
    (codecRoundtrip W).blueFlag.baseX = W.blueFlag.baseX ∧
    (codecRoundtrip W).blueFlag.baseZ = W.blueFlag.baseZ) ∧
  (|(codecRoundtrip W).redFlag.x - W.redFlag.x| ≤ 1/100 ∧
    |(codecRoundtrip W).redFlag.z - W.redFlag.z| ≤ 1/100 ∧
    (codecRoundtrip W).redFlag.carrierId = W.redFlag.carrierId ∧
    |(codecRoundtrip W).redFlag.dropTimer - W.redFlag.dropTimer| ≤ 1/20 ∧
    (codecRoundtrip W).redFlag.y = W.redFlag.y ∧
    (codecRoundtrip W).redFlag.team = W.redFlag.team ∧
    (codecRoundtrip W).redFlag.baseX = W.redFlag.baseX ∧
    (codecRoundtrip W).redFlag.baseZ = W.redFlag.baseZ) ∧
  (codecRoundtrip W).score = W.score ∧
  List.Forall₂ (fun (pu pu' : PowerUp3) =>
      pu'.id = pu.id ∧ pu'.type = pu.type ∧ |pu'.x - pu.x| ≤ 1/100 ∧
      |pu'.z - pu.z| ≤ 1/100 ∧ pu'.active = true)
    (W.powerUps.filter (fun p => p.active)) (codecRoundtrip W).powerUps ∧
  List.Forall₂ (fun (b b' : Projectile3) =>
      |b'.x - b.x| ≤ 1/100 ∧ |b'.y - b.y| ≤ 1/100 ∧ |b'.z - b.z| ≤ 1/100 ∧
      b'.team = b.team)
    W.projectiles (codecRoundtrip W).projectiles ∧
  (codecRoundtrip W).gamePhase = W.gamePhase ∧
  |(codecRoundtrip W).countdownTimer - W.countdownTimer| ≤ 1/20 ∧
  (codecRoundtrip W).winner = W.winner ∧
  (codecRoundtrip W).tick = W.tick

/-- A world with a moving player, a carried flag, one active and one spent
power-up and a bullet in flight. -/
def wCodecState : GameState3 :=
  { players := [("p1", { mkPlayer3 "p1" "Pia" Team.blue (1234/1000) (5678/1000) with
        yaw := 1/3, pitch := -2/7, shootCooldown := 1/4 })]
  , blueFlag := mkFlag3 Team.blue (13/2) (25/2) (13/2) (25/2)
  , redFlag := { mkFlag3 Team.red (67/2) (25/2) (67/2) (25/2) with carrierId := some "p1" }
  , score := ⟨1, 2⟩
  , powerUps := [⟨"pw1", PowerUpType.shield, 7/3, 11/3, 0, true⟩,
                 ⟨"pw2", PowerUpType.speed, 1, 1, 0, false⟩]
  , projectiles := [⟨"b9", "p1", Team.blue, 2, 1, 3, 10, 0, -10, 1⟩]
  , events := [], gamePhase := Phase.playing, countdownTimer := 0, winner := none
  , tick := 42, powerUpSpawnTimer := 15 }

/-- Witness: the roundtrip guarantees hold at the concrete world above. -/
theorem codec_roundtrip_witness :
    (wCodecState.players.map Prod.fst).Nodup ∧
      (∀ kv ∈ wCodecState.players, kv.2.name ≠ "") ∧
      (∀ kv ∈ wCodecState.players, kv.2.y = 0 ∧ kv.2.vy = 0) ∧
      CodecSpec wCodecState :=
  ⟨by with_unfolding_all decide, by with_unfolding_all decide, by with_unfolding_all decide,
    codec_roundtrip wCodecState (by with_unfolding_all decide)
      (by with_unfolding_all decide) (by with_unfolding_all decide)⟩

/-! ## Game-phase / winner bookkeeping (C5) -/

theorem setFlag_pw (s : GameState) (t : Team) (f : Flag) :
    (s.setFlag t f).gamePhase = s.gamePhase ∧ (s.setFlag t f).winner = s.winner := by
  cases t <;> exact ⟨rfl, rfl⟩

theorem addEvent_pw (s : GameState) (a b : String) :
    (addEvent s a b).gamePhase = s.gamePhase ∧ (addEvent s a b).winner = s.winner :=
  ⟨rfl, rfl⟩

theorem touchReturnStep_pw (u : GameState) (k : String) :
    (touchReturnStep u k).gamePhase = u.gamePhase ∧
      (touchReturnStep u k).winner = u.winner := by
  unfold touchReturnStep
  cases lookupId k u.players with
  | none => exact ⟨rfl, rfl⟩
  | some w =>
    simp only
    split
    · obtain ⟨h1, h2⟩ := addEvent_pw (GameState.setFlag _ _ _) _ _
      obtain ⟨h3, h4⟩ := setFlag_pw u w.team _
      exact ⟨h1.trans h3, h2.trans h4⟩
    · exact ⟨rfl, rfl⟩

theorem pickupStep_pw (u : GameState) (k : String) :
    (pickupStep u k).gamePhase = u.gamePhase ∧ (pickupStep u k).winner = u.winner := by
  unfold pickupStep
  cases lookupId k u.players with
  | none => exact ⟨rfl, rfl⟩
  | some w =>
    simp only
    split
    · split
      · split
        · obtain ⟨h3, h4⟩ := setFlag_pw u w.team.other _
          exact ⟨h3, h4⟩
        · exact ⟨rfl, rfl⟩
      · exact ⟨rfl, rfl⟩
    · exact ⟨rfl, rfl⟩

theorem checkState_pw (u : GameState) (k : String) :
    (checkState u k).gamePhase = u.gamePhase ∧ (checkState u k).winner = u.winner := by
  unfold checkState
  obtain ⟨h1, h2⟩ := pickupStep_pw (touchReturnStep u k) k
  obtain ⟨h3, h4⟩ := touchReturnStep_pw u k
  exact ⟨h1.trans h3, h2.trans h4⟩

theorem powerupCollectStep_pw (u : GameState) (k : String) :
    (powerupCollectStep u k).gamePhase = u.gamePhase ∧
      (powerupCollectStep u k).winner = u.winner := by
  unfold powerupCollectStep
  cases lookupId k u.players with
  | none => exact ⟨rfl, rfl⟩
  | some p0 => exact ⟨rfl, rfl⟩

theorem killPlayer_pw (victimId : String) (victim : Player) (kn : String) (s : GameState) :
    (killPlayer victimId victim kn s).gamePhase = s.gamePhase ∧
      (killPlayer victimId victim kn s).winner = s.winner := by
  unfold killPlayer
  split
  · obtain ⟨h3, h4⟩ := setFlag_pw s victim.team.other _
    exact ⟨h3, h4⟩
  · exact ⟨rfl, rfl⟩

theorem processBullet_pw (s : GameState) (b : Projectile) :
    (processBullet s b).1.gamePhase = s.gamePhase ∧
      (processBullet s b).1.winner = s.winner := by
  unfold processBullet
  simp only
  split
  · exact ⟨rfl, rfl⟩
  · split
    · exact ⟨rfl, rfl⟩
    · split
      · exact ⟨rfl, rfl⟩
      · split
        · exact ⟨rfl, rfl⟩
        · exact killPlayer_pw _ _ _ s

theorem projFold_pw (l : List Projectile) (u : GameState) :
    (projFold l u).1.gamePhase = u.gamePhase ∧ (projFold l u).1.winner = u.winner := by
  induction l with
  | nil => exact ⟨rfl, rfl⟩
  | cons b rest ih =>
    rw [projFold_cons]
    have hb := processBullet_pw (projFold rest u).1 b
    cases hpr : processBullet (projFold rest u).1 b with
    | mk st r =>
      rw [hpr] at hb
      cases r <;> exact ⟨hb.1.trans ih.1, hb.2.trans ih.2⟩

theorem updateProjectiles_pw (s : GameState) :
    (updateProjectiles s).gamePhase = s.gamePhase ∧
      (updateProjectiles s).winner = s.winner := by
  unfold updateProjectiles
  simp only
  exact projFold_pw s.projectiles _

theorem eventsPhase_pw (s : GameState) :
    (eventsPhase s).gamePhase = s.gamePhase ∧ (eventsPhase s).winner = s.winner :=
  ⟨rfl, rfl⟩

theorem puTimerPhase_pw (o : Oracle) (s : GameState) :
    (puTimerPhase o s).gamePhase = s.gamePhase ∧ (puTimerPhase o s).winner = s.winner := by
  simp only [puTimerPhase, spawnPowerUp]
  split
  · split <;> exact ⟨rfl, rfl⟩
  · exact ⟨rfl, rfl⟩

theorem preFold_pw (o : Oracle) (s : GameState) :
    (preFold o s).gamePhase = s.gamePhase ∧ (preFold o s).winner = s.winner := by
  unfold preFold flagPhase flagAnimPhase puAnimPhase
  exact puTimerPhase_pw o s

/-- The win-check of the scoring branch: the phase flips to `gameover` with
the scorer's team as winner exactly when the bumped score reaches
`SCORE_TO_WIN`. -/
theorem scoreApply_pw (s : GameState) (k : String) (p : Player) :
    (SCORE_TO_WIN ≤ s.score.get p.team + 1 ∧
        (scoreApply s k p).gamePhase = Phase.gameover ∧
        (scoreApply s k p).winner = some p.team) ∨
      (¬SCORE_TO_WIN ≤ s.score.get p.team + 1 ∧
        (scoreApply s k p).gamePhase = s.gamePhase ∧
        (scoreApply s k p).winner = s.winner) := by
  have hbump : (s.score.bump p.team).get p.team = s.score.get p.team + 1 := by
    rw [Score.get_bump]
    simp
  unfold scoreApply
  simp only [addEvent, setFlag_score]
  split
  · rename_i hge
    rw [hbump] at hge
    exact Or.inl ⟨hge, rfl, rfl⟩
  · rename_i hlt
    rw [hbump] at hlt
    refine Or.inr ⟨hlt, ?_, ?_⟩
    · exact (setFlag_pw { s with score := s.score.bump p.team } p.team.other _).1
    · exact (setFlag_pw { s with score := s.score.bump p.team } p.team.other _).2

theorem scoreStep_pw (u : GameState) (k : String) :
    scoreStep u k = u ∨
      ∃ p, lookupId k u.players = some p ∧
        (scoreStep u k).score = u.score.bump p.team ∧
        ((SCORE_TO_WIN ≤ u.score.get p.team + 1 ∧
            (scoreStep u k).gamePhase = Phase.gameover ∧
            (scoreStep u k).winner = some p.team) ∨
          (¬SCORE_TO_WIN ≤ u.score.get p.team + 1 ∧
            (scoreStep u k).gamePhase = u.gamePhase ∧
            (scoreStep u k).winner = u.winner)) := by
  unfold scoreStep
  cases hw : lookupId k u.players with
  | none => exact Or.inl rfl
  | some p =>
    simp only
    by_cases hc : (p.state == PState.carrying) = true
    · rw [if_pos hc]
      by_cases hg : scoreFire u p = true
      · rw [if_pos hg]
        exact Or.inr ⟨p, rfl, scoreApply_score u k p, scoreApply_pw u k p⟩
      · rw [if_neg hg]
        exact Or.inl rfl
    · rw [if_neg hc]
      exact Or.inl rfl

/-- The phase/winner/score effect of one player iteration: either all three
are untouched, or exactly one team's score is bumped, with the win check
deciding the phase and winner. -/
theorem logicPlayer_pw (o : Oracle) (u : GameState) (k : String) :
    ((logicPlayer o u k).score = u.score ∧ (logicPlayer o u k).gamePhase = u.gamePhase ∧
        (logicPlayer o u k).winner = u.winner) ∨
      ∃ tw : Team, (logicPlayer o u k).score = u.score.bump tw ∧
        ((SCORE_TO_WIN ≤ u.score.get tw + 1 ∧
            (logicPlayer o u k).gamePhase = Phase.gameover ∧
            (logicPlayer o u k).winner = some tw) ∨
          (¬SCORE_TO_WIN ≤ u.score.get tw + 1 ∧
            (logicPlayer o u k).gamePhase = u.gamePhase ∧
            (logicPlayer o u k).winner = u.winner)) := by
  unfold logicPlayer
  cases hw : lookupId k u.players with
  | none => exact Or.inl ⟨rfl, rfl, rfl⟩
  | some p =>
    simp only
    by_cases hd : p.state = PState.dead
    · rw [if_pos hd]
      split
      · exact Or.inl ⟨rfl, rfl, rfl⟩
      · exact Or.inl ⟨rfl, rfl, rfl⟩
    · rw [if_neg hd]
      obtain ⟨hcs1, hcs2⟩ := checkState_pw u k
      have hcssc : (checkState u k).score = u.score := checkState_score u k
      obtain ⟨hpc1, hpc2⟩ := powerupCollectStep_pw (scoreStep (checkState u k) k) k
      have hpcsc := powerupCollectStep_score (scoreStep (checkState u k) k) k
      rcases scoreStep_pw (checkState u k) k with heq | ⟨p', hp', hsc, hdisj⟩
      · left
        rw [hpcsc, heq, hcssc]
        rw [heq] at hpc1 hpc2
        exact ⟨rfl, hpc1.trans hcs1, hpc2.trans hcs2⟩
      · right
        refine ⟨p'.team, by rw [hpcsc, hsc, hcssc], ?_⟩
        rw [hcssc] at hdisj
        rcases hdisj with ⟨hge, h1, h2⟩ | ⟨hlt, h1, h2⟩
        · exact Or.inl ⟨hge, hpc1.trans h1, hpc2.trans h2⟩
        · exact Or.inr ⟨hlt, hpc1.trans (h1.trans hcs1), hpc2.trans (h2.trans hcs2)⟩

theorem fold_score_mono (o : Oracle) (tw : Team) :
    ∀ (ks : List String) (u : GameState),
      u.score.get tw ≤ (ks.foldl (logicPlayer o) u).score.get tw := by
  intro ks
  induction ks with
  | nil => intro u; exact le_refl _
  | cons k ks' ih =>
    intro u
    rw [List.foldl_cons]
    refine le_trans ?_ (ih (logicPlayer o u k))
    rw [logicPlayer_score]
    split <;> simp

/-- Through the player loop, if the opposing team never scores, then either
team `t` never scores (everything untouched) or it does, and in that case
reaching the threshold forces `gameover` with `t` as winner. -/
theorem fold_win (o : Oracle) (t : Team) :
    ∀ (ks : List String) (u : GameState),
      (ks.foldl (logicPlayer o) u).score.get t.other = u.score.get t.other →
      (((ks.foldl (logicPlayer o) u).score.get t = u.score.get t ∧
          (ks.foldl (logicPlayer o) u).gamePhase = u.gamePhase ∧
          (ks.foldl (logicPlayer o) u).winner = u.winner) ∨
        (u.score.get t < (ks.foldl (logicPlayer o) u).score.get t ∧
          (SCORE_TO_WIN ≤ (ks.foldl (logicPlayer o) u).score.get t →
            (ks.foldl (logicPlayer o) u).gamePhase = Phase.gameover ∧
            (ks.foldl (logicPlayer o) u).winner = some t))) := by
  intro ks
  induction ks with
  | nil => intro u _; exact Or.inl ⟨rfl, rfl, rfl⟩
  | cons k ks' ih =>
    intro u hother
    rw [List.foldl_cons] at hother ⊢
    have hstepo : u.score.get t.other ≤ (logicPlayer o u k).score.get t.other := by
      rw [logicPlayer_score]
      split <;> simp
    have hfoldo := fold_score_mono o t.other ks' (logicPlayer o u k)
    rw [hother] at hfoldo
    have huo : (logicPlayer o u k).score.get t.other = u.score.get t.other :=
      le_antisymm hfoldo hstepo
    have hother' : (ks'.foldl (logicPlayer o) (logicPlayer o u k)).score.get t.other
        = (logicPlayer o u k).score.get t.other := by
      rw [hother, huo]
    rcases logicPlayer_pw o u k with ⟨hs, h1, h2⟩ | ⟨tw, hsc, hdisj⟩
    · rcases ih (logicPlayer o u k) hother' with ⟨g1, g2, g3⟩ | ⟨g1, g2⟩
      · exact Or.inl ⟨by rw [g1, hs], g2.trans h1, g3.trans h2⟩
      · refine Or.inr ⟨?_, g2⟩
        rw [show u.score.get t = (logicPlayer o u k).score.get t by rw [hs]]
        exact g1
    · by_cases htw : tw = t
      · subst htw
        have hstept : (logicPlayer o u k).score.get tw = u.score.get tw + 1 := by
          rw [hsc, Score.get_bump]
          simp
        rcases ih (logicPlayer o u k) hother' with ⟨g1, g2, g3⟩ | ⟨g1, g2⟩
        · refine Or.inr ⟨?_, ?_⟩
          · rw [g1, hstept]
            exact Nat.lt_succ_self _
          · intro hge
            rw [g1, hstept] at hge
            rcases hdisj with ⟨_, h1, h2⟩ | ⟨hlt, _, _⟩
            · exact ⟨g2.trans h1, g3.trans h2⟩
            · exact absurd hge hlt
        · refine Or.inr ⟨?_, g2⟩
          calc u.score.get tw < u.score.get tw + 1 := Nat.lt_succ_self _
            _ = (logicPlayer o u k).score.get tw := hstept.symm
            _ < _ := g1
      · have htw2 : tw = t.other := Team.eq_other_of_ne tw t htw
        subst htw2
        have hbad : (logicPlayer o u k).score.get t.other = u.score.get t.other + 1 := by
          rw [hsc, Score.get_bump]
          simp
        rw [huo] at hbad
        omega

/-- C5: when an `updateGameLogic` call carries team `t`'s score across
`SCORE_TO_WIN` (and the opposing team does not score in the same call — in
coherent play two teams can never score in one call, since scoring requires
the scorer's own flag to be simultaneously uncarried at its base), the same
call ends with `gamePhase = gameover` and `winner = t`; and the engine's
phase gate makes every subsequent `update` a no-op on a gameover state, so
no score ever changes again. -/
theorem score_threshold_gameover (o : Oracle) (s : GameState) (t : Team)
    (hbefore : s.score.get t < SCORE_TO_WIN)
    (hafter : SCORE_TO_WIN ≤ (updateGameLogic o s).score.get t)
    (hother : (updateGameLogic o s).score.get t.other = s.score.get t.other) :
    (updateGameLogic o s).gamePhase = Phase.gameover ∧
      (updateGameLogic o s).winner = some t ∧
      (∀ (f : GameState → GameState) (dt : ℚ) (g : GameState),
        g.gamePhase = Phase.gameover → ∀ n : ℕ, (engineUpdate f dt)^[n] g = g) := by
  have hgate : ∀ (f : GameState → GameState) (dt : ℚ) (g : GameState),
      g.gamePhase = Phase.gameover → engineUpdate f dt g = g := by
    intro f dt g hg
    unfold engineUpdate
    rw [if_neg (by rw [hg]; exact fun he => nomatch he),
      if_pos (by rw [hg]; exact fun he => nomatch he)]
  have hiter : ∀ (f : GameState → GameState) (dt : ℚ) (g : GameState),
      g.gamePhase = Phase.gameover → ∀ n : ℕ, (engineUpdate f dt)^[n] g = g := by
    intro f dt g hg n
    induction n with
    | zero => rfl
    | succ n ih => rw [Function.iterate_succ_apply', ih, hgate f dt g hg]
  have hscup := updateGameLogic_score_eq_fold o s
  obtain ⟨hup1, hup2⟩ := updateProjectiles_pw
    (((preFold o s).players.map Prod.fst).foldl (logicPlayer o) (preFold o s))
  obtain ⟨hev1, hev2⟩ := eventsPhase_pw (updateProjectiles
    (((preFold o s).players.map Prod.fst).foldl (logicPlayer o) (preFold o s)))
  obtain ⟨hpre1, hpre2⟩ := preFold_pw o s
  have hpresc := preFold_score o s
  have hrepr : updateGameLogic o s =
      eventsPhase (updateProjectiles
        (((preFold o s).players.map Prod.fst).foldl (logicPlayer o) (preFold o s))) := rfl
  have hfother : (((preFold o s).players.map Prod.fst).foldl (logicPlayer o)
      (preFold o s)).score.get t.other = (preFold o s).score.get t.other := by
    rw [← hscup, hother, hpresc]
  rcases fold_win o t ((preFold o s).players.map Prod.fst) (preFold o s) hfother with
    ⟨g1, _, _⟩ | ⟨_, g2⟩
  · rw [← hscup, hpresc] at g1
    rw [g1] at hafter
    exact absurd hafter (by omega)
  · have hfoldt : SCORE_TO_WIN ≤ (((preFold o s).players.map Prod.fst).foldl (logicPlayer o)
        (preFold o s)).score.get t := by
      rw [← hscup]
      exact hafter
    obtain ⟨gph, gw⟩ := g2 hfoldt
    refine ⟨?_, ?_, hiter⟩
    · rw [hrepr, hev1, hup1, gph]
    · rw [hrepr, hev2, hup2, gw]

/-- The blue carrier at its base with score 2: the call scores the winning
point. -/
def wWinState : GameState := { wScoreState with score := ⟨2, 0⟩ }

/-- Witness: the winning increment flips the phase and names the winner, and
the gameover gate freezes the engine. -/
theorem score_threshold_gameover_witness :
    wWinState.score.get Team.blue < SCORE_TO_WIN ∧
      SCORE_TO_WIN ≤ (updateGameLogic wOracle wWinState).score.get Team.blue ∧
      ((updateGameLogic wOracle wWinState).gamePhase = Phase.gameover ∧
        (updateGameLogic wOracle wWinState).winner = some Team.blue ∧
        (∀ (f : GameState → GameState) (dt : ℚ) (g : GameState),
          g.gamePhase = Phase.gameover → ∀ n : ℕ, (engineUpdate f dt)^[n] g = g)) :=
  ⟨by decide, by with_unfolding_all decide,
    score_threshold_gameover wOracle wWinState Team.blue (by decide)
      (by with_unfolding_all decide) (by with_unfolding_all decide)⟩

end CtF